import Mathlib

/-!
# Verification of the lite-agent message-to-event adapter core

Shallow embedding of the core subsystem of the `lite-agent` backend:

* `backend/core/adapters.py` — the `EventAdapter`, its message converters,
  the `ContentBlockConverter`/`ToolCallConverter` chunked re-streaming, and
  the usage/cost accumulator;
* `backend/app/services/session_service.py` — `update_task_session_id`;
* `backend/app/services/event_service.py` — `save_event` / `get_max_sequence`;
* `backend/app/services/task_service.py` — task creation / deletion;
* `backend/app/api/v1/endpoints/response.py` — the `event_generator` loop
  (lazy task creation, event persistence with per-task sequence numbers,
  mid-stream session-id discovery and binding, assistant-content collection,
  and end-of-run empty-task cleanup).

Modelling conventions:

* Upstream messages and content blocks are duck-typed Python objects; they are
  embedded as structures of `Option`-valued fields, where `none` models an
  absent attribute (so `hasattr` is `Option.isSome` and `getattr(x, f, d)` is
  `Option.getD`).
* Python values that flow through `str()` / truthiness checks are embedded as
  the inductive `PyVal` with an executable `pyStr` and `pyTruthy`.
* `uuid.uuid4()` is embedded as a gensym counter threaded through the
  converters; each draw yields an identifier distinct from every identifier
  supplied by the upstream payload (reflecting uuid freshness).
* Python floats only ever flow through assignment and comparison in this core
  (they are never added or multiplied), so costs are embedded as `Rat`.
* The async generators emit events in a deterministic order with no
  interleaving, so each converter is a pure function returning the list of
  events it yields; `asyncio.sleep` is a no-op for event order.
-/

/-- A Python runtime value as far as this core inspects one: strings,
integers, booleans, `None`, lists and string-keyed dicts. -/
inductive PyVal where
  | pstr (s : String)
  | pint (n : Int)
  | pbool (b : Bool)
  | pnone
  | pnum (q : Rat)
  | plist (xs : List PyVal)
  | pdict (entries : List (String × PyVal))

mutual

/-- Python `repr` of a `PyVal` (strings are quoted). -/
def pyRepr : PyVal → String
  | .pstr s => "'" ++ s ++ "'"
  | .pint n => toString n
  | .pbool b => if b then "True" else "False"
  | .pnone => "None"
  | .pnum q => toString q
  | .plist xs => "[" ++ pyReprList xs ++ "]"
  | .pdict es => "\x7b" ++ pyReprDict es ++ "\x7d"

/-- Comma-separated `repr` of list elements. -/
def pyReprList : List PyVal → String
  | [] => ""
  | [x] => pyRepr x
  | x :: xs => pyRepr x ++ ", " ++ pyReprList xs

/-- Comma-separated `repr` of dict entries. -/
def pyReprDict : List (String × PyVal) → String
  | [] => ""
  | [(k, v)] => "'" ++ k ++ "': " ++ pyRepr v
  | (k, v) :: es => "'" ++ k ++ "': " ++ pyRepr v ++ ", " ++ pyReprDict es

end

/-- Python `str` of a `PyVal` (top-level strings are unquoted). -/
def pyStr : PyVal → String
  | .pstr s => s
  | v => pyRepr v

/-- Python truthiness of a `PyVal`. -/
def pyTruthy : PyVal → Bool
  | .pstr s => s ≠ ""
  | .pint n => n ≠ 0
  | .pbool b => b
  | .pnone => false
  | .pnum q => q ≠ 0
  | .plist xs => !xs.isEmpty
  | .pdict es => !es.isEmpty

/-- `d.get(k)` on a string-keyed dict: first binding of `k`, if any. -/
def dictGet (es : List (String × PyVal)) (k : String) : Option PyVal :=
  (es.find? (fun e => e.1 = k)).map (fun e => e.2)

/-- `d.get(k, 0)` restricted to integer values: the integer bound to `k`,
or `0` when `k` is absent.  (The source only ever reads the four token
counters this way, and their values are integers.) -/
def dictGetInt (es : List (String × PyVal)) (k : String) : Int :=
  match dictGet es k with
  | some (.pint n) => n
  | _ => 0

/-- `d.get(k)` read as an optional string (`None`/non-string gives `none`). -/
def dictGetStr (es : List (String × PyVal)) (k : String) : Option String :=
  match dictGet es k with
  | some (.pstr s) => some s
  | _ => none

/-- Truthiness of an optional string: `None` and `""` are falsy. -/
def strTruthy : Option String → Bool
  | none => false
  | some s => s ≠ ""

/-- `STREAMING_CHUNK_SIZE` from `core/adapters.py`. -/
def STREAMING_CHUNK_SIZE : Nat := 10

/-- `for i in range(0, len(text), STREAMING_CHUNK_SIZE): text[i:i+SIZE]`
at the character-list level: split into consecutive chunks of the
streaming chunk size (the final chunk may be shorter). -/
def chunkChars (l : List Char) : List (List Char) :=
  if l = [] then []
  else l.take STREAMING_CHUNK_SIZE :: chunkChars (l.drop STREAMING_CHUNK_SIZE)
termination_by l.length
decreasing_by
  have h1 : l ≠ [] := by assumption
  have h2 : 0 < l.length := List.length_pos.mpr h1
  simp only [List.length_drop, STREAMING_CHUNK_SIZE]
  omega

/-- The chunks `_stream_text` slices a payload string into, in emission
order. -/
def chunkString (s : String) : List String :=
  (chunkChars s.data).map (fun cs => String.mk cs)

/-- Concatenation of a list of strings in order (`''.join`). -/
def joinStrings (l : List String) : String :=
  l.foldr (fun a b => a ++ b) ""

/-!
## Event model (`core/events.py`)

Each pydantic event class becomes one constructor carrying its required
fields.  The creation timestamp and `raw_event` debugging field play no role
in any observable property of the core and are omitted.  `CustomEvent.data`
is `Dict[str, Any]`, embedded as an association list of `PyVal`.
`ToolCallResult.content` is typed `Any` in the source, so the constructor
carries a `PyVal` (the converters are proved to always put a string there).
-/

/-- The `AgentEvent` tagged union, restricted to the variants the adapter
core emits. -/
inductive Event where
  | runStarted (runId : String)
  | runFinished (runId : String) (totalCostUsd : Option Rat)
      (usage : Option (List (String × PyVal)))
  | runError (runId : String) (error : String) (errorType : Option String)
  | textMessageStart (messageId : String) (role : String)
  | textMessageContent (messageId : String) (delta : String)
  | textMessageEnd (messageId : String)
  | toolCallStart (toolCallId : String) (toolCallName : String)
  | toolCallArgs (toolCallId : String) (delta : String)
  | toolCallEnd (toolCallId : String)
  | toolCallResult (messageId : String) (toolCallId : String)
      (content : PyVal) (isError : Bool)
  | thinkingStart (thinkingId : String)
  | thinkingContent (thinkingId : String) (delta : String)
  | thinkingEnd (thinkingId : String)
  | customEvent (ty : String) (data : List (String × PyVal))

/-- `event.type`: the discriminant string of an event (for `CustomEvent`
it is the custom type name, exactly as in `core/events.py`). -/
def Event.typeStr : Event → String
  | .runStarted _ => "RunStarted"
  | .runFinished _ _ _ => "RunFinished"
  | .runError _ _ _ => "RunError"
  | .textMessageStart _ _ => "TextMessageStart"
  | .textMessageContent _ _ => "TextMessageContent"
  | .textMessageEnd _ => "TextMessageEnd"
  | .toolCallStart _ _ => "ToolCallStart"
  | .toolCallArgs _ _ => "ToolCallArgs"
  | .toolCallEnd _ => "ToolCallEnd"
  | .toolCallResult _ _ _ _ => "ToolCallResult"
  | .thinkingStart _ => "ThinkingStart"
  | .thinkingContent _ _ => "ThinkingContent"
  | .thinkingEnd _ => "ThinkingEnd"
  | .customEvent t _ => t

/-- Is this event the `RunStarted` lifecycle event (by class, not by the
custom type string)? -/
def Event.isRunStarted : Event → Bool
  | .runStarted _ => true
  | _ => false

/-- Is this event a terminal lifecycle event (`RunFinished` or `RunError`)? -/
def Event.isTerminal : Event → Bool
  | .runFinished _ _ _ => true
  | .runError _ _ _ => true
  | _ => false

/-- The `run_id` carried by a lifecycle event, if it is one. -/
def Event.lifecycleRunId : Event → Option String
  | .runStarted r => some r
  | .runFinished r _ _ => some r
  | .runError r _ _ => some r
  | _ => none

/-!
## Upstream message and content-block model

Upstream SDK objects are duck-typed; every field the core reads via
`getattr`/`hasattr` becomes an `Option`-valued field (`none` = attribute
absent).  `srepr` is the object's opaque `str()`/`repr()` form, used by the
fallback paths.
-/

/-- One content block of an assistant/user message. -/
structure Block where
  ty : Option String := none
  className : String := "object"
  thinking : Option String := none
  text : Option String := none
  name : Option String := none
  input : Option PyVal := none
  id : Option String := none
  tool_use_id : Option String := none
  content : Option PyVal := none
  is_error : Option PyVal := none
  srepr : String := "<block>"

/-- One entry of an `AssistantMessage.tool_calls` list. -/
structure ToolCall where
  id : Option String := none
  name : Option String := none
  function : Option (List (String × PyVal)) := none
  input : Option PyVal := none

/-- The `content` attribute of a message: a list of blocks, a plain string,
or some other Python value. -/
inductive MsgContent where
  | blocks (bs : List Block)
  | strContent (s : String)
  | otherContent (v : PyVal)

/-- Python `str()` of a message `content` value (a list of block objects
prints as the list of their reprs). -/
def msgContentStr : MsgContent → String
  | .blocks bs => "[" ++ String.intercalate ", " (bs.map (fun b => b.srepr)) ++ "]"
  | .strContent s => s
  | .otherContent v => pyStr v

/-- An upstream SDK message as the duck-typed record of every attribute the
adapter core reads. -/
structure Msg where
  ty : Option String := none
  className : String := "object"
  id : Option String := none
  message_id : Option String := none
  usage : Option PyVal := none
  total_cost_usd : Option Rat := none
  subtype : Option String := none
  data : Option PyVal := none
  session_id : Option String := none
  duration_ms : Option Int := none
  is_error : Option PyVal := none
  result : Option PyVal := none
  content : Option MsgContent := none
  tool_calls : Option (List ToolCall) := none
  tool_call_id : Option String := none
  srepr : String := "<message>"

/-- `getattr(message, 'type', type(message).__name__)`: the discriminant
used by every converter's `can_handle` and by the dispatcher fallback. -/
def Msg.discriminant (m : Msg) : String :=
  m.ty.getD m.className

/-- A Python exception as the adapter observes one: `str(e)` and
`type(e).__name__`. -/
structure PyErr where
  msg : String
  name : String

/-- An identifier used as a usage-deduplication key: either one supplied by
the upstream message, or a synthetic `uuid.uuid4()` draw.  Modelling uuid4 as
a counter reflects its freshness: a synthetic identifier never collides with
an earlier one. -/
inductive MsgId where
  | given (s : String)
  | synth (n : Nat)
deriving DecidableEq

/-!
## Content converters (`ContentBlockConverter`, `ToolCallConverter`)

`uuid.uuid4()` draws are threaded as a gensym counter `g`; Python evaluates
`getattr`'s default argument eagerly, so a draw happens even when the
attribute is present (the drawn value is then unused).
-/

/-- A synthetic `str(uuid.uuid4())` value, as the `n`-th draw. -/
def genId (n : Nat) : String := "uuid-" ++ toString n

/-- `PyVal` of an optional string attribute (`None` when absent). -/
def optStrVal : Option String → PyVal
  | some s => .pstr s
  | none => .pnone

/-- `_stream_text(text, event_factory)`: one event per chunk, in order. -/
def streamTextEvents (text : String) (factory : String → Event) : List Event :=
  (chunkString text).map factory

/-- `ContentBlockConverter._convert_thinking`. -/
def convert_thinking (g : Nat) (b : Block) : List Event × Nat :=
  let thinkingId := genId g
  let thinkingText := b.thinking.getD ""
  (Event.thinkingStart thinkingId ::
      streamTextEvents thinkingText (fun c => .thinkingContent thinkingId c)
    ++ [Event.thinkingEnd thinkingId], g + 1)

/-- `ContentBlockConverter._convert_text`. -/
def convert_text (g : Nat) (b : Block) : List Event × Nat :=
  let messageId := genId g
  let text := b.text.getD ""
  (Event.textMessageStart messageId "assistant" ::
      streamTextEvents text (fun c => .textMessageContent messageId c)
    ++ [Event.textMessageEnd messageId], g + 1)

/-- `ContentBlockConverter._convert_tool_use`. -/
def convert_tool_use (g : Nat) (b : Block) : List Event × Nat :=
  let toolCallId := b.id.getD (genId g)
  let g1 := g + 1
  let toolName := b.name.getD "unknown"
  let toolInput := b.input.getD (.pdict [])
  let inputStr := pyStr toolInput
  (Event.toolCallStart toolCallId toolName ::
      streamTextEvents inputStr (fun c => .toolCallArgs toolCallId c)
    ++ [Event.toolCallEnd toolCallId], g1)

/-- `ContentBlockConverter._convert_tool_result`: the block's `content` is
passed through `str()` whatever its shape, `is_error` through `bool(· or
False)`. -/
def convert_tool_result (g : Nat) (b : Block) : List Event × Nat :=
  let toolCallId := b.tool_use_id.getD (genId g)
  let g1 := g + 1
  let content := b.content.getD (.pstr "")
  let isError := pyTruthy (b.is_error.getD (.pbool false))
  ([Event.toolCallResult (genId g1) toolCallId (.pstr (pyStr content)) isError],
    g1 + 1)

/-- The class-name / duck-typed branch of `ContentBlockConverter.convert`
(the `elif` chain after the type-tag table misses), ending in the
`UnknownBlock` fallback. -/
def blockConvertByShape (g : Nat) (b : Block) : List Event × Nat :=
  if b.className = "ThinkingBlock" ∨ b.thinking.isSome then
    convert_thinking g b
  else if b.className = "TextBlock" ∨ b.text.isSome then
    convert_text g b
  else if b.className = "ToolUseBlock" ∨
      (b.name.isSome ∧ b.input.isSome ∧ b.id.isSome) then
    convert_tool_use g b
  else if b.className = "ToolResultBlock" ∨
      (b.tool_use_id.isSome ∧ b.content.isSome) then
    convert_tool_result g b
  else
    ([.customEvent "UnknownBlock"
        [("block_type", optStrVal b.ty), ("block_repr", .pstr b.srepr)]], g)

/-- `ContentBlockConverter.convert`: dispatch on the truthy `type` tag via
the converter table, else by class name / duck-typed shape. -/
def blockConvert (g : Nat) (b : Block) : List Event × Nat :=
  match b.ty with
  | some t =>
    if t = "thinking" then convert_thinking g b
    else if t = "text" then convert_text g b
    else if t = "tool_use" then convert_tool_use g b
    else if t = "tool_result" then convert_tool_result g b
    else blockConvertByShape g b
  | none => blockConvertByShape g b

/-- Convert a list of content blocks in order, threading the gensym. -/
def convertBlocks (g : Nat) : List Block → List Event × Nat
  | [] => ([], g)
  | b :: rest =>
    let p := blockConvert g b
    let q := convertBlocks p.2 rest
    (p.1 ++ q.1, q.2)

/-- `ToolCallConverter.convert`. -/
def toolCallConvert (g : Nat) (tc : ToolCall) : List Event × Nat :=
  let toolCallId := tc.id.getD (genId g)
  let g1 := g + 1
  let fnDict := tc.function.getD []
  let toolName :=
    match tc.name with
    | some s => s
    | none => (dictGetStr fnDict "name").getD "unknown"
  let toolInput :=
    match tc.input with
    | some v => v
    | none => (dictGet fnDict "arguments").getD (.pdict [])
  let inputStr := pyStr toolInput
  (Event.toolCallStart toolCallId toolName ::
      streamTextEvents inputStr (fun c => .toolCallArgs toolCallId c)
    ++ [Event.toolCallEnd toolCallId], g1)

/-- Convert an `AssistantMessage.tool_calls` list in order. -/
def convertToolCalls (g : Nat) : List ToolCall → List Event × Nat
  | [] => ([], g)
  | tc :: rest =>
    let p := toolCallConvert g tc
    let q := convertToolCalls p.2 rest
    (p.1 ++ q.1, q.2)

/-!
## Message converters and the `EventAdapter`
-/

/-- `EventAdapter.__init__` state: the per-instance run id, the usage
deduplication set, the per-step usage list, the `ResultMessage` overrides,
and the gensym counter standing in for `uuid.uuid4()`. -/
structure AdapterState where
  runId : String
  processedMessageIds : List MsgId := []
  stepUsages : List (MsgId × List (String × PyVal)) := []
  resultMessageUsage : Option (List (String × PyVal)) := none
  resultMessageCost : Option Rat := none
  gensym : Nat := 0

/-- A fresh adapter (`EventAdapter()`) with the given generated run id. -/
def initAdapter (runId : String) : AdapterState := { runId := runId }

/-- `dict(usage)` when `usage` is a dict, else `{'raw': str(usage)}`. -/
def usageToDict (u : PyVal) : List (String × PyVal) :=
  match u with
  | .pdict es => es
  | v => [("raw", .pstr (pyStr v))]

/-- `SystemMessageConverter.convert`. -/
def systemMessageConvert (m : Msg) : List Event :=
  let messageData := m.data.getD (.pdict [])
  let sessionId : Option PyVal :=
    match messageData with
    | .pdict es => dictGet es "session_id"
    | _ => none
  let base := [("subtype", optStrVal m.subtype), ("data", messageData)]
  let data :=
    match sessionId with
    | some v => if pyTruthy v then base ++ [("session_id", v)] else base
    | none => base
  [.customEvent "SystemMessage" data]

/-- `UserMessageConverter.convert`. -/
def userMessageConvert (g : Nat) (m : Msg) : List Event × Nat :=
  match m.content.getD (.blocks []) with
  | .blocks bs => convertBlocks g bs
  | .strContent s =>
    let messageId := genId g
    ([.textMessageStart messageId "user", .textMessageContent messageId s,
      .textMessageEnd messageId], g + 1)
  | .otherContent _ => ([], g)

/-- `AssistantMessageConverter.convert`. -/
def assistantMessageConvert (g : Nat) (m : Msg) : List Event × Nat :=
  let tcp : List Event × Nat :=
    match m.tool_calls with
    | some tcs => if tcs.isEmpty then ([], g) else convertToolCalls g tcs
    | none => ([], g)
  let cep : List Event × Nat :=
    match m.content.getD (.blocks []) with
    | .blocks bs => convertBlocks tcp.2 bs
    | .strContent s =>
      let messageId := genId tcp.2
      ([.textMessageStart messageId "assistant",
        .textMessageContent messageId s, .textMessageEnd messageId], tcp.2 + 1)
    | .otherContent _ => ([], tcp.2)
  (tcp.1 ++ cep.1, cep.2)

/-- `ResultMessageConverter.convert`: extracts the end-of-run usage/cost
summary, stores the truthy values on the adapter, and emits the
`ResultMessage` custom event. -/
def resultMessageConvert (st : AdapterState) (m : Msg) : List Event × AdapterState :=
  let fromData : Option PyVal :=
    match m.data with
    | some (.pdict es) => dictGet es "usage"
    | _ => none
  let usageVal : Option PyVal :=
    match m.usage with
    | some u =>
      if pyTruthy u then some u
      else match fromData with
        | some v => if pyTruthy v then some v else none
        | none => none
    | none =>
      match fromData with
      | some v => if pyTruthy v then some v else none
      | none => none
  let usageDict : Option (List (String × PyVal)) := usageVal.map usageToDict
  let totalCost := m.total_cost_usd
  let st1 :=
    match usageDict with
    | some u => { st with resultMessageUsage := some u }
    | none => st
  let st2 :=
    match totalCost with
    | some c => if c ≠ 0 then { st1 with resultMessageCost := some c } else st1
    | none => st1
  let data0 :=
    [("subtype", optStrVal m.subtype),
     ("duration_ms", match m.duration_ms with | some n => PyVal.pint n | none => .pnone),
     ("is_error", m.is_error.getD (.pbool false))]
  let data1 :=
    match usageDict with
    | some u => data0 ++ [("usage", .pdict u)]
    | none => data0
  let data2 :=
    match totalCost with
    | some c => data1 ++ [("total_cost_usd", .pnum c)]
    | none => data1
  let data3 :=
    match m.session_id with
    | some s => if s ≠ "" then data2 ++ [("session_id", .pstr s)] else data2
    | none => data2
  let data4 :=
    match m.result with
    | some .pnone => data3
    | some v => data3 ++ [("result", v)]
    | none => data3
  ([.customEvent "ResultMessage" data4], st2)

/-- `ToolMessageConverter.convert`. -/
def toolMessageConvert (g : Nat) (m : Msg) : List Event × Nat :=
  let toolCallId := (m.tool_call_id.or m.id).getD (genId g)
  let g1 := g + 1
  let contentStr :=
    match m.content with
    | some c => msgContentStr c
    | none => pyStr (m.result.getD (.pstr ""))
  let isError := pyTruthy (m.is_error.getD (.pbool false))
  ([Event.toolCallResult (genId g1) toolCallId (.pstr contentStr) isError],
    g1 + 1)

/-- `EventAdapter._convert_message`: try each registered converter's
`can_handle` in registration order, falling back to a raw `CustomEvent`. -/
def convert_message (st : AdapterState) (m : Msg) : List Event × AdapterState :=
  let d := m.discriminant
  if d = "SystemMessage" then
    (systemMessageConvert m, st)
  else if d = "UserMessage" then
    ((userMessageConvert st.gensym m).1,
      { st with gensym := (userMessageConvert st.gensym m).2 })
  else if d = "AssistantMessage" then
    ((assistantMessageConvert st.gensym m).1,
      { st with gensym := (assistantMessageConvert st.gensym m).2 })
  else if d = "ResultMessage" then
    resultMessageConvert st m
  else if d = "ToolMessage" ∨ d = "FunctionMessage" ∨ d = "ToolResultMessage" then
    ((toolMessageConvert st.gensym m).1,
      { st with gensym := (toolMessageConvert st.gensym m).2 })
  else
    ([.customEvent d [("raw", .pstr m.srepr)]], st)

/-- The usage-deduplication key of a message when its `id` attribute is
falsy: the truthy `message_id` attribute, else a fresh synthetic draw. -/
def fallbackMsgId (m : Msg) (g : Nat) : MsgId × Nat :=
  match m.message_id with
  | some s => if s ≠ "" then (.given s, g) else (.synth g, g + 1)
  | none => (.synth g, g + 1)

/-- The usage-deduplication key of a message: its truthy `id` attribute,
else `fallbackMsgId`. -/
def effectiveMsgId (m : Msg) (g : Nat) : MsgId × Nat :=
  match m.id with
  | some s => if s ≠ "" then (.given s, g) else fallbackMsgId m g
  | none => fallbackMsgId m g

/-- `EventAdapter._track_usage`: record a usage-bearing assistant message's
usage once per deduplication key. -/
def track_usage (st : AdapterState) (m : Msg) : AdapterState :=
  let isAssistant := m.discriminant = "AssistantMessage" ∨
    m.className = "AssistantMessage"
  if ¬isAssistant then st
  else match m.usage with
    | none => st
    | some u =>
      if ¬pyTruthy u then st
      else
        let mid := (effectiveMsgId m st.gensym).1
        let g1 := (effectiveMsgId m st.gensym).2
        if mid ∈ st.processedMessageIds then { st with gensym := g1 }
        else
          let usageDict := usageToDict u
          { st with
            gensym := g1,
            processedMessageIds := st.processedMessageIds ++ [mid],
            stepUsages := st.stepUsages ++ [(mid, usageDict)] }

/-- Sum of one integer counter across the recorded step usages. -/
def sumUsageKey (steps : List (MsgId × List (String × PyVal))) (k : String) : Int :=
  steps.foldl (fun acc s => acc + dictGetInt s.2 k) 0

/-- `EventAdapter._aggregate_usage`: additive aggregation of the four token
counters over the recorded steps (`None` when no step was recorded). -/
def aggregate_usage (steps : List (MsgId × List (String × PyVal))) :
    Option (List (String × PyVal)) :=
  if steps.isEmpty then none
  else some
    [("input_tokens", .pint (sumUsageKey steps "input_tokens")),
     ("output_tokens", .pint (sumUsageKey steps "output_tokens")),
     ("cache_creation_input_tokens",
       .pint (sumUsageKey steps "cache_creation_input_tokens")),
     ("cache_read_input_tokens",
       .pint (sumUsageKey steps "cache_read_input_tokens"))]

/-- Outcome of the `async for` body of `adapt_message_stream` over the
messages the upstream stream yielded: the forwarded events, the adapter
state, the two loop-local accumulators, and the exception (if any) raised
inside the loop body (the only raise point is `dict(usage_val)` on a
non-dict `ResultMessage.usage`). -/
structure LoopResult where
  events : List Event
  state : AdapterState
  totalCostUsd : Rat
  totalUsage : Option (List (String × PyVal))
  raised : Option PyErr

/-- The `TypeError` raised by `dict(usage_val)` on a non-dict value. -/
def dictConversionError : PyErr :=
  ⟨"cannot convert non-dict usage to dict", "TypeError"⟩

/-- The loop-local `total_cost_usd` after the direct `ResultMessage`
introspection of one message (keyed on the class name): a truthy
`total_cost_usd` replaces the current value. -/
def rmLoopCost (m : Msg) (cost : Rat) : Rat :=
  if m.className = "ResultMessage" then
    match m.total_cost_usd with
    | some c => if c ≠ 0 then c else cost
    | none => cost
  else cost

/-- Does the direct `ResultMessage` introspection raise?  Only when a truthy
`usage` attribute is not a dict (`dict(usage_val)` fails). -/
def rmLoopRaises (m : Msg) : Bool :=
  if m.className = "ResultMessage" then
    match m.usage with
    | some (.pdict _) => false
    | some u => pyTruthy u
    | none => false
  else false

/-- The loop-local `total_usage` after the direct `ResultMessage`
introspection of one message: a truthy dict `usage` replaces the current
value. -/
def rmLoopUsage (m : Msg) (usage : Option (List (String × PyVal))) :
    Option (List (String × PyVal)) :=
  if m.className = "ResultMessage" then
    match m.usage with
    | some (.pdict es) => if pyTruthy (.pdict es) then some es else usage
    | _ => usage
  else usage

/-- The loop body of `adapt_message_stream` over a list of upstream
messages: per message, `_track_usage`, then the direct `ResultMessage`
cost/usage introspection (keyed on the class name, possibly raising), then
`_convert_message`, forwarding events in order. -/
def adaptLoop (st : AdapterState) (cost : Rat)
    (usage : Option (List (String × PyVal))) : List Msg → LoopResult
  | [] => ⟨[], st, cost, usage, none⟩
  | m :: rest =>
    let st1 := track_usage st m
    let cost1 := rmLoopCost m cost
    if rmLoopRaises m then ⟨[], st1, cost1, usage, some dictConversionError⟩
    else
      let p := convert_message st1 m
      let r := adaptLoop p.2 cost1 (rmLoopUsage m usage) rest
      { r with events := p.1 ++ r.events }

/-- The post-loop usage resolution of `adapt_message_stream`: a truthy
`ResultMessage` usage wins, else an aggregate of the recorded steps, else
the loop-local value. -/
def finishUsage (st : AdapterState)
    (loopUsage : Option (List (String × PyVal))) :
    Option (List (String × PyVal)) :=
  match st.resultMessageUsage with
  | some u =>
    if !u.isEmpty then some u
    else if !st.stepUsages.isEmpty then aggregate_usage st.stepUsages
    else loopUsage
  | none =>
    if !st.stepUsages.isEmpty then aggregate_usage st.stepUsages
    else loopUsage

/-- The post-loop cost resolution of `adapt_message_stream`: a truthy
`ResultMessage` cost wins over the loop-local value. -/
def finishCost (st : AdapterState) (loopCost : Rat) : Rat :=
  match st.resultMessageCost with
  | some c => if c ≠ 0 then c else loopCost
  | none => loopCost

/-- `EventAdapter.adapt_message_stream` over an upstream stream that yields
`msgs` and then either ends normally (`streamErr = none`) or raises
`streamErr`: `RunStarted` first, the converted events of each message in
order, and exactly one terminal event — `RunFinished` with the accumulator's
final values on normal end, `RunError` on any exception. -/
def adapt_message_stream (st0 : AdapterState) (msgs : List Msg)
    (streamErr : Option PyErr) : List Event :=
  let r := adaptLoop st0 0 none msgs
  Event.runStarted st0.runId ::
    (r.events ++
      [match r.raised with
       | some e => .runError st0.runId e.msg (some e.name)
       | none =>
         match streamErr with
         | some e => .runError st0.runId e.msg (some e.name)
         | none =>
           let c := finishCost r.state r.totalCostUsd
           .runFinished st0.runId (if 0 < c then some c else none)
             (finishUsage r.state r.totalUsage)])

/-!
## Persistence model (`task_service.py`, `event_service.py`,
`session_service.py`, `conversation_service.py`)

The database is a value: task rows, event rows, conversation rows and an
autoincrement counter for fresh task ids.  Event payloads are not replayed
by any claim, so an event row keeps its task id, event type and sequence
number.  A conversation row keeps its task id and role.
-/

/-- A `Task` row: stable id and the at-most-once upstream session binding. -/
structure TaskRec where
  tid : Nat
  sessionId : Option String := none

/-- An `Event` row as `save_event` persists it. -/
structure EventRec where
  tid : Nat
  ty : String
  seq : Nat

/-- The relational state. -/
structure DB where
  tasks : List TaskRec := []
  events : List EventRec := []
  convs : List (Nat × String) := []
  nextTid : Nat := 0

/-- `EventService.get_max_sequence`: maximum persisted sequence for a task,
`-1` when the task has no events. -/
def get_max_sequence (db : DB) (tid : Nat) : Int :=
  ((db.events.filter (fun e => e.tid = tid)).map (fun e => (e.seq : Int))).foldl
    max (-1)

/-- `EventService.save_event`: append one event row with the given
sequence. -/
def save_event (db : DB) (tid : Nat) (ty : String) (seq : Nat) : DB :=
  { db with events := db.events ++ [⟨tid, ty, seq⟩] }

/-- `ConversationService.create_user_message`. -/
def create_user_message (db : DB) (tid : Nat) : DB :=
  { db with convs := db.convs ++ [(tid, "user")] }

/-- `ConversationService.create_assistant_message` (the usage figures it
stores are not read back by any claim). -/
def create_assistant_message (db : DB) (tid : Nat) : DB :=
  { db with convs := db.convs ++ [(tid, "assistant")] }

/-- The assistant-message count query of the empty-turn cleanup. -/
def countAssistantMessages (db : DB) (tid : Nat) : Nat :=
  (db.convs.filter (fun c => c.1 = tid ∧ c.2 = "assistant")).length

/-- `TaskService.delete_task`: delete the task row; conversations and
events cascade (`cascade="all, delete-orphan"` on the `Task` model). -/
def delete_task (db : DB) (tid : Nat) : DB :=
  { db with
    tasks := db.tasks.filter (fun t => t.tid ≠ tid),
    convs := db.convs.filter (fun c => c.1 ≠ tid),
    events := db.events.filter (fun e => e.tid ≠ tid) }

/-- `TaskService.get_or_create_task_by_session` as the generator calls it
(`session_id=None`): always creates a fresh task with no session binding. -/
def createTask (db : DB) (sessionId : Option String) : Nat × DB :=
  (db.nextTid,
    { db with
      tasks := db.tasks ++ [⟨db.nextTid, sessionId⟩],
      nextTid := db.nextTid + 1 })

/-- `SessionService.update_task_session_id`: bind a session id to a task,
reporting `False` on a collision with another task or on an already-set
different binding, committing only in the success case. -/
def update_task_session_id (db : DB) (task : TaskRec) (newSessionId : String) :
    Bool × DB :=
  if ¬ strTruthy task.sessionId then
    if db.tasks.any (fun t => t.sessionId = some newSessionId ∧ t.tid ≠ task.tid) then
      (false, db)
    else
      (true,
        { db with
          tasks := db.tasks.map (fun t =>
            if t.tid = task.tid then { t with sessionId := some newSessionId }
            else t) })
  else if task.sessionId ≠ some newSessionId then (false, db)
  else (true, db)

/-- The sequences persisted for a task, in commit order. -/
def seqsOf (db : DB) (tid : Nat) : List Nat :=
  (db.events.filter (fun e => e.tid = tid)).map (fun e => e.seq)

/-!
## The `event_generator` loop (`api/v1/endpoints/response.py`)

The loop is embedded as a fold of `processEvent` over the events the
adapter yields, between an init step (task resolution and, for an existing
task, sequence-cursor initialisation and user-message persistence) and a
finish step (assistant-message persistence or empty-task cleanup).  Yields
to the SSE client carry no state and are not modelled; the usage figures
collected from `RunFinished` flow only into stored columns no claim reads
back, so they are not carried either.
-/

/-- The inbound `ResponseRequest` fields the generator reads. -/
structure ResponseRequest where
  message : String
  task_id : Option Nat := none
  session_id : Option String := none

/-- The mutable locals of `event_generator` that survive across loop
iterations, together with the database. -/
structure GenState where
  db : DB
  task : Option Nat
  eventSeq : Nat
  newSessionId : Option String
  userMessageSaved : Bool
  runStartedSaved : Bool
  hasValidResponse : Bool
  assistantMessageId : Option String
  assistantParts : List String
  sessionIdSent : Bool

/-- The event types that trigger fallback lazy task creation. -/
def lazyCreateTypes : List String :=
  ["RunStarted", "TextMessageStart", "ThinkingStart", "ToolCallStart"]

/-- The pre-loop setup once the task (if any) is resolved: for an existing
task, initialise the sequence cursor from `get_max_sequence + 1` and persist
the user message (conversation row plus three text events). -/
def mkInit (task : Option Nat) (db : DB) : GenState :=
  match task with
  | some t =>
    let seq0 := (get_max_sequence db t + 1).toNat
    let db1 := create_user_message db t
    let db2 := save_event db1 t "TextMessageStart" seq0
    let db3 := save_event db2 t "TextMessageContent" (seq0 + 1)
    let db4 := save_event db3 t "TextMessageEnd" (seq0 + 2)
    ⟨db4, some t, seq0 + 3, none, true, false, false, none, [], false⟩
  | none => ⟨db, none, 0, none, false, false, false, none, [], false⟩

/-- Task resolution at the top of `event_generator`: a supplied `task_id`
is looked up (a missing one raises, aborting the run: `none`); else a
truthy `session_id` is looked up; else no task yet. -/
def initGen (req : ResponseRequest) (db : DB) : Option GenState :=
  match req.task_id with
  | some tid =>
    if db.tasks.any (fun t => t.tid = tid) then some (mkInit (some tid) db)
    else none
  | none =>
    match req.session_id with
    | some s =>
      if s ≠ "" then
        some (mkInit ((db.tasks.find? (fun t => t.sessionId = some s)).map
          (fun t => t.tid)) db)
      else some (mkInit none db)
    | none => some (mkInit none db)

/-- Step 1 of the loop body: fallback lazy task creation on the first
response event, resetting the sequence cursor to 0 and persisting the user
message first. -/
def lazyCreateStep (st : GenState) (ev : Event) : GenState :=
  if st.task.isNone ∧ ev.typeStr ∈ lazyCreateTypes then
    let tid := (createTask st.db none).1
    let db1 := (createTask st.db none).2
    let st1 := { st with db := db1, task := some tid, eventSeq := 0 }
    let st2 :=
      if ¬ st1.userMessageSaved then
        let db2 := create_user_message st1.db tid
        let db3 := save_event db2 tid "TextMessageStart" 0
        let db4 := save_event db3 tid "TextMessageContent" 1
        let db5 := save_event db4 tid "TextMessageEnd" 2
        { st1 with db := db5, eventSeq := 3, userMessageSaved := true }
      else st1
    { st2 with hasValidResponse := true }
  else st

/-- The nested `session_id` lookup in a `SystemMessage` init event's
`data` payload. -/
def nestedSessionId (data : List (String × PyVal)) : Option String :=
  match dictGet data "data" with
  | some (.pdict es) => dictGetStr es "session_id"
  | _ => none

/-- Session-id extraction from one event: a `SystemMessage` init custom
event (top-level `session_id`, else nested in its `data`), or a
`ResultMessage` custom event carrying a `session_id` key. -/
def extractSessionId (ev : Event) : Option String :=
  match ev with
  | .customEvent t data =>
    if t = "SystemMessage" then
      match dictGet data "subtype" with
      | some (.pstr sub) =>
        if sub = "init" then
          match dictGetStr data "session_id" with
          | some s => if s ≠ "" then some s else nestedSessionId data
          | none => nestedSessionId data
        else none
      | _ => none
    else if t = "ResultMessage" then
      if (dictGet data "session_id").isSome then dictGetStr data "session_id"
      else none
    else none
  | _ => none

/-- The binding block run when a truthy session id is first extracted:
bind it to the active task unless another task owns it (collision: log,
change nothing) or the task already has a different one (anomaly: keep the
original); with no active task, adopt the owning task if one exists. -/
def applySessionBinding (st : GenState) (nsid : String) : GenState :=
  match st.task with
  | some t =>
    match st.db.tasks.find? (fun tr => tr.tid = t) with
    | some trec =>
      if ¬ strTruthy trec.sessionId then
        if st.db.tasks.any (fun tr => tr.sessionId = some nsid ∧ tr.tid ≠ t) then
          st
        else
          { st with
            db := { st.db with
              tasks := st.db.tasks.map (fun tr =>
                if tr.tid = t then { tr with sessionId := some nsid } else tr) } }
      else st
    | none => st
  | none =>
    match st.db.tasks.find? (fun tr => tr.sessionId = some nsid) with
    | some trec => { st with task := some trec.tid }
    | none => st

/-- Step 3 of the loop body: while no truthy session id has been seen,
extract one from this event and, if truthy, run the binding block. -/
def sessionStep (st : GenState) (ev : Event) : GenState :=
  if ¬ strTruthy st.newSessionId then
    match extractSessionId ev with
    | none => st
    | some s =>
      let st1 := { st with newSessionId := some s }
      if s ≠ "" then applySessionBinding st1 s else st1
  else st

/-- First half of step 4 of the loop body: on an assistant
`TextMessageStart`, start tracking its message id with an empty parts
list. -/
def collectStartStep (st : GenState) (ev : Event) : GenState :=
  match ev with
  | .textMessageStart mid role =>
    if role = "assistant" then
      { st with assistantMessageId := some mid, assistantParts := [] }
    else st
  | _ => st

/-- Second half of step 4 of the loop body: collect a truthy
`TextMessageContent` delta for the tracked assistant message id. -/
def collectDeltaStep (st : GenState) (ev : Event) : GenState :=
  match ev with
  | .textMessageContent mid delta =>
    match st.assistantMessageId with
    | some a =>
      if a ≠ "" ∧ mid = a ∧ delta ≠ "" then
        { st with assistantParts := st.assistantParts ++ [delta] }
      else st
    | none => st
  | _ => st

/-- Step 4 of the loop body: track the assistant message id and collect its
truthy content deltas. -/
def collectContentStep (st : GenState) (ev : Event) : GenState :=
  collectDeltaStep (collectStartStep st ev) ev

/-- Step 2 of the loop body for non-`RunStarted` events: persist the event
under the active task with the current cursor and advance the cursor,
marking a valid response on `TextMessageStart`/`ThinkingStart`/
`ToolCallStart`. -/
def saveStep (st : GenState) (ev : Event) : GenState :=
  match st.task with
  | some t =>
    if ev.typeStr ≠ "SessionInfo" then
      if ev.typeStr ∈ ["TextMessageStart", "ThinkingStart", "ToolCallStart"] then
        { st with
          db := save_event st.db t ev.typeStr st.eventSeq,
          eventSeq := st.eventSeq + 1,
          hasValidResponse := true }
      else
        { st with
          db := save_event st.db t ev.typeStr st.eventSeq,
          eventSeq := st.eventSeq + 1 }
    else st
  | none => st

/-- Step 2 of the loop body for a `RunStarted` event with an active task:
persist it at most once, then short-circuit (`continue`). -/
def runStartedStep (st : GenState) : GenState :=
  match st.task with
  | some t =>
    if ¬ st.runStartedSaved then
      { st with
        db := save_event st.db t "RunStarted" st.eventSeq,
        eventSeq := st.eventSeq + 1,
        runStartedSaved := true }
    else st
  | none => st

/-- Step 6 of the loop body: mark the one-shot `SessionInfo` emission. -/
def sessionInfoStep (st : GenState) (ev : Event) : GenState :=
  if strTruthy st.newSessionId ∧ ¬ st.sessionIdSent ∧
      ev.typeStr ≠ "RunStarted" then
    { st with sessionIdSent := true }
  else st

/-- One iteration of the `async for` loop of `event_generator` (yields to
the SSE stream omitted).  A `RunStarted` event with an active task is
persisted at most once and short-circuits the rest of the body
(`continue`); every other event flows through persistence, session
extraction/binding, content collection and the `SessionInfo` flag. -/
def processEvent (st0 : GenState) (ev : Event) : GenState :=
  let st := lazyCreateStep st0 ev
  if st.task.isSome ∧ ev.typeStr = "RunStarted" then
    runStartedStep st
  else
    sessionInfoStep (collectContentStep (sessionStep (saveStep st ev) ev) ev) ev

/-- Python `str.strip()`: drop whitespace from both ends. -/
def pyStrip (s : String) : String :=
  String.mk (((s.data.dropWhile Char.isWhitespace).reverse.dropWhile
    Char.isWhitespace).reverse)

/-- The post-loop epilogue of `event_generator`: persist the assistant
message when non-whitespace content was collected; otherwise, for a task
the caller did not identify by `task_id`, delete it when it has no
assistant messages. -/
def finishGen (req : ResponseRequest) (st : GenState) : GenState :=
  match st.task with
  | some t =>
    if ¬ st.assistantParts.isEmpty then
      if pyStrip (joinStrings st.assistantParts) ≠ "" then
        { st with db := create_assistant_message st.db t }
      else st
    else if req.task_id.isNone then
      if countAssistantMessages st.db t = 0 then
        { st with db := delete_task st.db t, task := none }
      else st
    else st
  | none => st

/-- One full `event_generator` run over a list of adapter events: init,
loop, epilogue (`none` when task lookup raised). -/
def runGenerator (req : ResponseRequest) (db : DB) (evs : List Event) :
    Option GenState :=
  (initGen req db).map (fun st => finishGen req (evs.foldl processEvent st))

/-!
## Helper lemmas: chunking
-/

theorem string_mk_append (a b : List Char) :
    String.mk a ++ String.mk b = String.mk (a ++ b) := rfl

theorem joinStrings_map_mk (L : List (List Char)) :
    joinStrings (L.map String.mk) = String.mk L.flatten := by
  induction L with
  | nil => rfl
  | cons a rest ih =>
    show String.mk a ++ joinStrings (rest.map String.mk) =
      String.mk (a :: rest).flatten
    rw [ih, string_mk_append, List.flatten_cons]

theorem chunkChars_flatten (l : List Char) : (chunkChars l).flatten = l := by
  rw [chunkChars]
  split
  · rename_i h
    subst h
    rfl
  · rw [List.flatten_cons, chunkChars_flatten (l.drop STREAMING_CHUNK_SIZE)]
    exact List.take_append_drop _ l
termination_by l.length
decreasing_by
  have h1 : l ≠ [] := by assumption
  have h2 : 0 < l.length := List.length_pos.mpr h1
  simp only [List.length_drop, STREAMING_CHUNK_SIZE]
  omega

theorem chunkString_join (s : String) : joinStrings (chunkString s) = s := by
  unfold chunkString
  rw [joinStrings_map_mk, chunkChars_flatten]

theorem chunkChars_getElem? (l : List Char) (i : Nat) :
    (chunkChars l)[i]? =
      if l.drop (i * STREAMING_CHUNK_SIZE) = [] then none
      else some ((l.drop (i * STREAMING_CHUNK_SIZE)).take STREAMING_CHUNK_SIZE) := by
  rw [chunkChars]
  split
  · rename_i h
    subst h
    simp
  · rename_i h
    match i with
    | 0 => simp [h]
    | i + 1 =>
      have ih := chunkChars_getElem? (l.drop STREAMING_CHUNK_SIZE) i
      simp only [List.getElem?_cons_succ]
      rw [ih, List.drop_drop]
      have harith : STREAMING_CHUNK_SIZE + i * STREAMING_CHUNK_SIZE =
          (i + 1) * STREAMING_CHUNK_SIZE := by ring
      rw [harith]
termination_by l.length
decreasing_by
  have h1 : l ≠ [] := by assumption
  have h2 : 0 < l.length := List.length_pos.mpr h1
  simp only [List.length_drop, STREAMING_CHUNK_SIZE]
  omega

/-!
## Delta extraction
-/

/-- The `delta` values of `TextMessageContent` events for one message id,
in emission order. -/
def textDeltas (mid : String) (evs : List Event) : List String :=
  evs.filterMap (fun e =>
    match e with
    | .textMessageContent m d => if m = mid then some d else none
    | _ => none)

/-- The `delta` values of `ThinkingContent` events for one thinking id. -/
def thinkingDeltas (tid : String) (evs : List Event) : List String :=
  evs.filterMap (fun e =>
    match e with
    | .thinkingContent t d => if t = tid then some d else none
    | _ => none)

/-- The `delta` values of `ToolCallArgs` events for one tool call id. -/
def toolArgsDeltas (tcid : String) (evs : List Event) : List String :=
  evs.filterMap (fun e =>
    match e with
    | .toolCallArgs t d => if t = tcid then some d else none
    | _ => none)

theorem textDeltas_convert_text (g : Nat) (b : Block) :
    textDeltas (genId g) (convert_text g b).1 = chunkString (b.text.getD "") := by
  simp [convert_text, textDeltas, streamTextEvents, List.filterMap_map,
    List.filterMap_cons, List.filterMap_append, Function.comp_def]

theorem thinkingDeltas_convert_thinking (g : Nat) (b : Block) :
    thinkingDeltas (genId g) (convert_thinking g b).1 =
      chunkString (b.thinking.getD "") := by
  simp [convert_thinking, thinkingDeltas, streamTextEvents, List.filterMap_map,
    List.filterMap_cons, List.filterMap_append, Function.comp_def]

theorem toolArgsDeltas_convert_tool_use (g : Nat) (b : Block) :
    toolArgsDeltas (b.id.getD (genId g)) (convert_tool_use g b).1 =
      chunkString (pyStr (b.input.getD (.pdict []))) := by
  simp [convert_tool_use, toolArgsDeltas, streamTextEvents, List.filterMap_map,
    List.filterMap_cons, List.filterMap_append, Function.comp_def]

theorem toolArgsDeltas_toolCallConvert (g : Nat) (tc : ToolCall) :
    toolArgsDeltas (tc.id.getD (genId g)) (toolCallConvert g tc).1 =
      chunkString (pyStr
        (match tc.input with
         | some v => v
         | none => (dictGet (tc.function.getD []) "arguments").getD (.pdict []))) := by
  simp [toolCallConvert, toolArgsDeltas, streamTextEvents, List.filterMap_map,
    List.filterMap_cons, List.filterMap_append, Function.comp_def]

/-- C2: for every text, thinking, or tool-argument payload converted by the
content converters, the emitted deltas for the payload's id are exactly the
fixed-size chunking of the payload — each chunk is the slice of the payload
at consecutive multiples of `STREAMING_CHUNK_SIZE` — and concatenating them
in emission order reproduces the payload exactly; chunking is a pure
function of the payload. -/
theorem c2_delta_concat_roundtrip :
    (∀ s : String, joinStrings (chunkString s) = s)
    ∧ (∀ (s : String) (i : Nat),
        (chunkString s)[i]? =
          if s.data.drop (i * STREAMING_CHUNK_SIZE) = [] then none
          else some (String.mk
            ((s.data.drop (i * STREAMING_CHUNK_SIZE)).take STREAMING_CHUNK_SIZE)))
    ∧ (∀ (g : Nat) (b : Block),
        textDeltas (genId g) (convert_text g b).1 = chunkString (b.text.getD "")
        ∧ joinStrings (textDeltas (genId g) (convert_text g b).1) = b.text.getD "")
    ∧ (∀ (g : Nat) (b : Block),
        thinkingDeltas (genId g) (convert_thinking g b).1 =
          chunkString (b.thinking.getD "")
        ∧ joinStrings (thinkingDeltas (genId g) (convert_thinking g b).1) =
          b.thinking.getD "")
    ∧ (∀ (g : Nat) (b : Block),
        toolArgsDeltas (b.id.getD (genId g)) (convert_tool_use g b).1 =
          chunkString (pyStr (b.input.getD (.pdict [])))
        ∧ joinStrings (toolArgsDeltas (b.id.getD (genId g)) (convert_tool_use g b).1) =
          pyStr (b.input.getD (.pdict [])))
    ∧ (∀ (g : Nat) (tc : ToolCall),
        joinStrings (toolArgsDeltas (tc.id.getD (genId g)) (toolCallConvert g tc).1) =
          pyStr (match tc.input with
            | some v => v
            | none => (dictGet (tc.function.getD []) "arguments").getD (.pdict []))) := by
  refine ⟨chunkString_join, ?_, ?_, ?_, ?_, ?_⟩
  · intro s i
    rw [chunkString, List.getElem?_map, chunkChars_getElem?]
    split <;> simp
  · intro g b
    exact ⟨textDeltas_convert_text g b, by
      rw [textDeltas_convert_text g b, chunkString_join]⟩
  · intro g b
    exact ⟨thinkingDeltas_convert_thinking g b, by
      rw [thinkingDeltas_convert_thinking g b, chunkString_join]⟩
  · intro g b
    exact ⟨toolArgsDeltas_convert_tool_use g b, by
      rw [toolArgsDeltas_convert_tool_use g b, chunkString_join]⟩
  · intro g tc
    rw [toolArgsDeltas_toolCallConvert g tc, chunkString_join]

/-!
## Helper lemmas: converters emit no lifecycle events
-/

/-- Is this event a lifecycle event (`RunStarted`/`RunFinished`/`RunError`)? -/
def Event.isLifecycle (e : Event) : Bool := e.isRunStarted || e.isTerminal

/-- Is this event the `RunError` lifecycle event? -/
def Event.isRunErrorEv : Event → Bool
  | .runError _ _ _ => true
  | _ => false

theorem streamTextEvents_no_lifecycle (t : String) (f : String → Event)
    (hf : ∀ c, (f c).isLifecycle = false) :
    ∀ e ∈ streamTextEvents t f, e.isLifecycle = false := by
  intro e he
  simp only [streamTextEvents, List.mem_map] at he
  obtain ⟨c, _, rfl⟩ := he
  exact hf c

theorem convert_thinking_no_lifecycle (g : Nat) (b : Block) :
    ∀ e ∈ (convert_thinking g b).1, e.isLifecycle = false := by
  intro e he
  rcases List.mem_append.mp he with h | h
  · rcases List.mem_cons.mp h with rfl | h2
    · rfl
    · refine streamTextEvents_no_lifecycle _ _ ?_ _ h2
      intro c
      rfl
  · rcases List.mem_cons.mp h with rfl | h2
    · rfl
    · exact absurd h2 (List.not_mem_nil e)

theorem convert_text_no_lifecycle (g : Nat) (b : Block) :
    ∀ e ∈ (convert_text g b).1, e.isLifecycle = false := by
  intro e he
  rcases List.mem_append.mp he with h | h
  · rcases List.mem_cons.mp h with rfl | h2
    · rfl
    · refine streamTextEvents_no_lifecycle _ _ ?_ _ h2
      intro c
      rfl
  · rcases List.mem_cons.mp h with rfl | h2
    · rfl
    · exact absurd h2 (List.not_mem_nil e)

theorem convert_tool_use_no_lifecycle (g : Nat) (b : Block) :
    ∀ e ∈ (convert_tool_use g b).1, e.isLifecycle = false := by
  intro e he
  rcases List.mem_append.mp he with h | h
  · rcases List.mem_cons.mp h with rfl | h2
    · rfl
    · refine streamTextEvents_no_lifecycle _ _ ?_ _ h2
      intro c
      rfl
  · rcases List.mem_cons.mp h with rfl | h2
    · rfl
    · exact absurd h2 (List.not_mem_nil e)

theorem convert_tool_result_no_lifecycle (g : Nat) (b : Block) :
    ∀ e ∈ (convert_tool_result g b).1, e.isLifecycle = false := by
  intro e he
  rcases List.mem_cons.mp he with rfl | h
  · rfl
  · exact absurd h (List.not_mem_nil e)

theorem blockConvertByShape_no_lifecycle (g : Nat) (b : Block) :
    ∀ e ∈ (blockConvertByShape g b).1, e.isLifecycle = false := by
  intro e he
  unfold blockConvertByShape at he
  split at he
  · exact convert_thinking_no_lifecycle _ _ _ he
  · split at he
    · exact convert_text_no_lifecycle _ _ _ he
    · split at he
      · exact convert_tool_use_no_lifecycle _ _ _ he
      · split at he
        · exact convert_tool_result_no_lifecycle _ _ _ he
        · rcases List.mem_cons.mp he with rfl | h
          · rfl
          · exact absurd h (List.not_mem_nil e)

theorem blockConvert_no_lifecycle (g : Nat) (b : Block) :
    ∀ e ∈ (blockConvert g b).1, e.isLifecycle = false := by
  intro e he
  unfold blockConvert at he
  split at he
  · split at he
    · exact convert_thinking_no_lifecycle _ _ _ he
    · split at he
      · exact convert_text_no_lifecycle _ _ _ he
      · split at he
        · exact convert_tool_use_no_lifecycle _ _ _ he
        · split at he
          · exact convert_tool_result_no_lifecycle _ _ _ he
          · exact blockConvertByShape_no_lifecycle _ _ _ he
  · exact blockConvertByShape_no_lifecycle _ _ _ he

theorem convertBlocks_no_lifecycle (g : Nat) (bs : List Block) :
    ∀ e ∈ (convertBlocks g bs).1, e.isLifecycle = false := by
  induction bs generalizing g with
  | nil => intro e he; exact absurd he (List.not_mem_nil e)
  | cons b rest ih =>
    intro e he
    rcases List.mem_append.mp he with h | h
    · exact blockConvert_no_lifecycle _ _ _ h
    · exact ih _ _ h

theorem toolCallConvert_no_lifecycle (g : Nat) (tc : ToolCall) :
    ∀ e ∈ (toolCallConvert g tc).1, e.isLifecycle = false := by
  intro e he
  rcases List.mem_append.mp he with h | h
  · rcases List.mem_cons.mp h with rfl | h2
    · rfl
    · refine streamTextEvents_no_lifecycle _ _ ?_ _ h2
      intro c
      rfl
  · rcases List.mem_cons.mp h with rfl | h2
    · rfl
    · exact absurd h2 (List.not_mem_nil e)

theorem convertToolCalls_no_lifecycle (g : Nat) (tcs : List ToolCall) :
    ∀ e ∈ (convertToolCalls g tcs).1, e.isLifecycle = false := by
  induction tcs generalizing g with
  | nil => intro e he; exact absurd he (List.not_mem_nil e)
  | cons tc rest ih =>
    intro e he
    rcases List.mem_append.mp he with h | h
    · exact toolCallConvert_no_lifecycle _ _ _ h
    · exact ih _ _ h

theorem userMessageConvert_no_lifecycle (g : Nat) (m : Msg) :
    ∀ e ∈ (userMessageConvert g m).1, e.isLifecycle = false := by
  intro e he
  unfold userMessageConvert at he
  split at he
  · exact convertBlocks_no_lifecycle _ _ _ he
  · rcases List.mem_cons.mp he with rfl | h2
    · rfl
    · rcases List.mem_cons.mp h2 with rfl | h3
      · rfl
      · rcases List.mem_cons.mp h3 with rfl | h4
        · rfl
        · exact absurd h4 (List.not_mem_nil e)
  · exact absurd he (List.not_mem_nil e)

theorem assistantMessageConvert_no_lifecycle (g : Nat) (m : Msg) :
    ∀ e ∈ (assistantMessageConvert g m).1, e.isLifecycle = false := by
  intro e he
  unfold assistantMessageConvert at he
  rcases List.mem_append.mp he with h | h
  · split at h
    · split at h
      · exact absurd h (List.not_mem_nil e)
      · exact convertToolCalls_no_lifecycle _ _ _ h
    · exact absurd h (List.not_mem_nil e)
  · split at h
    · exact convertBlocks_no_lifecycle _ _ _ h
    · rcases List.mem_cons.mp h with rfl | h2
      · rfl
      · rcases List.mem_cons.mp h2 with rfl | h3
        · rfl
        · rcases List.mem_cons.mp h3 with rfl | h4
          · rfl
          · exact absurd h4 (List.not_mem_nil e)
    · exact absurd h (List.not_mem_nil e)

theorem systemMessageConvert_no_lifecycle (m : Msg) :
    ∀ e ∈ systemMessageConvert m, e.isLifecycle = false := by
  intro e he
  rcases List.mem_cons.mp he with rfl | h
  · rfl
  · exact absurd h (List.not_mem_nil e)

theorem resultMessageConvert_no_lifecycle (st : AdapterState) (m : Msg) :
    ∀ e ∈ (resultMessageConvert st m).1, e.isLifecycle = false := by
  intro e he
  rcases List.mem_cons.mp he with rfl | h
  · rfl
  · exact absurd h (List.not_mem_nil e)

theorem toolMessageConvert_no_lifecycle (g : Nat) (m : Msg) :
    ∀ e ∈ (toolMessageConvert g m).1, e.isLifecycle = false := by
  intro e he
  rcases List.mem_cons.mp he with rfl | h
  · rfl
  · exact absurd h (List.not_mem_nil e)

theorem convert_message_no_lifecycle (st : AdapterState) (m : Msg) :
    ∀ e ∈ (convert_message st m).1, e.isLifecycle = false := by
  intro e he
  dsimp only [convert_message] at he
  split at he
  · exact systemMessageConvert_no_lifecycle _ _ he
  · split at he
    · exact userMessageConvert_no_lifecycle _ _ _ he
    · split at he
      · exact assistantMessageConvert_no_lifecycle _ _ _ he
      · split at he
        · exact resultMessageConvert_no_lifecycle _ _ _ he
        · split at he
          · exact toolMessageConvert_no_lifecycle _ _ _ he
          · rcases List.mem_cons.mp he with rfl | h
            · rfl
            · exact absurd h (List.not_mem_nil e)

theorem adaptLoop_no_lifecycle (msgs : List Msg) :
    ∀ (st : AdapterState) (cost : Rat)
      (usage : Option (List (String × PyVal))),
    ∀ e ∈ (adaptLoop st cost usage msgs).events, e.isLifecycle = false := by
  induction msgs with
  | nil =>
    intro st cost usage e he
    exact absurd he (List.not_mem_nil e)
  | cons m rest ih =>
    intro st cost usage e he
    unfold adaptLoop at he
    by_cases hr : rmLoopRaises m = true
    · rw [if_pos hr] at he
      exact absurd he (List.not_mem_nil e)
    · rw [if_neg hr] at he
      rcases List.mem_append.mp he with h | h
      · exact convert_message_no_lifecycle _ _ _ h
      · exact ih _ _ _ _ h

theorem run_shape (r : String) (evs : List Event) (t : Event)
    (hevs : ∀ e ∈ evs, e.isLifecycle = false) (ht : t.isTerminal = true)
    (hnotrs : t.isRunStarted = false) :
    (Event.runStarted r :: (evs ++ [t])).countP (fun e => e.isRunStarted) = 1
    ∧ (Event.runStarted r :: (evs ++ [t])).countP (fun e => e.isTerminal) = 1
    ∧ (Event.runStarted r :: (evs ++ [t])).getLast? = some t := by
  have hsplit : ∀ e ∈ evs, e.isRunStarted = false ∧ e.isTerminal = false := by
    intro e he
    have h := hevs e he
    unfold Event.isLifecycle at h
    exact ⟨by revert h; cases e.isRunStarted <;> simp,
      by revert h; cases e.isTerminal <;> simp⟩
  have hz1 : evs.countP (fun e => e.isRunStarted) = 0 := by
    rw [List.countP_eq_zero]
    intro a ha
    simp [(hsplit a ha).1]
  have hz2 : evs.countP (fun e => e.isTerminal) = 0 := by
    rw [List.countP_eq_zero]
    intro a ha
    simp [(hsplit a ha).2]
  have hx1 : (Event.runStarted r).isRunStarted = true := rfl
  have hx2 : (Event.runStarted r).isTerminal = false := rfl
  refine ⟨?_, ?_, ?_⟩
  · rw [List.countP_cons, List.countP_append, hz1, List.countP_cons,
      List.countP_nil]
    simp [hnotrs, hx1]
  · rw [List.countP_cons, List.countP_append, hz2, List.countP_cons,
      List.countP_nil]
    simp [ht, hx2]
  · rw [← List.cons_append, List.getLast?_concat]

theorem initAdapter_runId (r : String) : (initAdapter r).runId = r := rfl

/-- C1: over any upstream message sequence, ending normally or raising,
`adapt_message_stream` emits exactly one `RunStarted` — first, before every
other event — and exactly one terminal event — last, `RunFinished` exactly
when neither the stream nor the loop body raised, `RunError` otherwise —
and both lifecycle events carry the adapter instance's single `run_id`. -/
theorem c1_run_lifecycle (r : String) (msgs : List Msg) (serr : Option PyErr) :
    (adapt_message_stream (initAdapter r) msgs serr).head? =
      some (.runStarted r)
    ∧ (adapt_message_stream (initAdapter r) msgs serr).countP
        (fun e => e.isRunStarted) = 1
    ∧ (adapt_message_stream (initAdapter r) msgs serr).countP
        (fun e => e.isTerminal) = 1
    ∧ ∃ term,
        (adapt_message_stream (initAdapter r) msgs serr).getLast? = some term
        ∧ term.isTerminal = true
        ∧ term.lifecycleRunId = some r
        ∧ term.isRunErrorEv =
            (serr.isSome ||
              (adaptLoop (initAdapter r) 0 none msgs).raised.isSome) := by
  have hevs := adaptLoop_no_lifecycle msgs (initAdapter r) 0 none
  rcases hraised : (adaptLoop (initAdapter r) 0 none msgs).raised with _ | perr
  · rcases serr with _ | serr'
    · have heq : adapt_message_stream (initAdapter r) msgs none =
          Event.runStarted r ::
            ((adaptLoop (initAdapter r) 0 none msgs).events ++
              [Event.runFinished r
                (if 0 < finishCost (adaptLoop (initAdapter r) 0 none msgs).state
                    (adaptLoop (initAdapter r) 0 none msgs).totalCostUsd then
                  some (finishCost
                    (adaptLoop (initAdapter r) 0 none msgs).state
                    (adaptLoop (initAdapter r) 0 none msgs).totalCostUsd)
                 else none)
                (finishUsage (adaptLoop (initAdapter r) 0 none msgs).state
                  (adaptLoop (initAdapter r) 0 none msgs).totalUsage)]) := by
        simp [adapt_message_stream, initAdapter_runId, hraised]
      rw [heq]
      refine ⟨rfl, (run_shape r _ _ hevs (by rfl) (by rfl)).1,
        (run_shape r _ _ hevs (by rfl) (by rfl)).2.1, _,
        (run_shape r _ _ hevs (by rfl) (by rfl)).2.2, rfl, rfl, ?_⟩
      simp [hraised, Event.isRunErrorEv]
    · have heq : adapt_message_stream (initAdapter r) msgs (some serr') =
          Event.runStarted r ::
            ((adaptLoop (initAdapter r) 0 none msgs).events ++
              [Event.runError r serr'.msg (some serr'.name)]) := by
        simp [adapt_message_stream, initAdapter_runId, hraised]
      rw [heq]
      refine ⟨rfl, (run_shape r _ _ hevs (by rfl) (by rfl)).1,
        (run_shape r _ _ hevs (by rfl) (by rfl)).2.1, _,
        (run_shape r _ _ hevs (by rfl) (by rfl)).2.2, rfl, rfl, ?_⟩
      simp [hraised, Event.isRunErrorEv]
  · have heq : adapt_message_stream (initAdapter r) msgs serr =
        Event.runStarted r ::
          ((adaptLoop (initAdapter r) 0 none msgs).events ++
            [Event.runError r perr.msg (some perr.name)]) := by
      simp [adapt_message_stream, initAdapter_runId, hraised]
    rw [heq]
    refine ⟨rfl, (run_shape r _ _ hevs (by rfl) (by rfl)).1,
      (run_shape r _ _ hevs (by rfl) (by rfl)).2.1, _,
      (run_shape r _ _ hevs (by rfl) (by rfl)).2.2, rfl, rfl, ?_⟩
    simp [hraised, Event.isRunErrorEv]

/-!
## C3: final usage/cost resolution
-/

/-- A message that carries no usage observation anywhere the accumulator
looks: no `usage` attribute, no `total_cost_usd`, and no `usage` key in a
dict `data` attribute. -/
def NoUsageMsg (m : Msg) : Prop :=
  m.usage = none ∧ m.total_cost_usd = none ∧
    (match m.data with
     | some (.pdict es) => dictGet es "usage" = none
     | _ => True)

theorem track_usage_of_no_usage (st : AdapterState) (m : Msg)
    (h : m.usage = none) : track_usage st m = st := by
  simp [track_usage, h]

theorem resultMessageConvert_state_of_no_usage (st : AdapterState) (m : Msg)
    (h : NoUsageMsg m) : (resultMessageConvert st m).2 = st := by
  obtain ⟨h1, h2, h3⟩ := h
  rcases hd : m.data with _ | v
  · simp [resultMessageConvert, h1, h2, hd]
  · rcases v with s | n | b | _ | q | xs | es
    · simp [resultMessageConvert, h1, h2, hd]
    · simp [resultMessageConvert, h1, h2, hd]
    · simp [resultMessageConvert, h1, h2, hd]
    · simp [resultMessageConvert, h1, h2, hd]
    · simp [resultMessageConvert, h1, h2, hd]
    · simp [resultMessageConvert, h1, h2, hd]
    · rw [hd] at h3
      simp only at h3
      simp [resultMessageConvert, h1, h2, hd, h3]

theorem convert_message_preserves_acc (st : AdapterState) (m : Msg)
    (h : NoUsageMsg m) :
    (convert_message st m).2.stepUsages = st.stepUsages
    ∧ (convert_message st m).2.resultMessageUsage = st.resultMessageUsage
    ∧ (convert_message st m).2.resultMessageCost = st.resultMessageCost := by
  dsimp only [convert_message]
  split
  · exact ⟨rfl, rfl, rfl⟩
  · split
    · exact ⟨rfl, rfl, rfl⟩
    · split
      · exact ⟨rfl, rfl, rfl⟩
      · split
        · rw [resultMessageConvert_state_of_no_usage st m h]
          exact ⟨rfl, rfl, rfl⟩
        · split
          · exact ⟨rfl, rfl, rfl⟩
          · exact ⟨rfl, rfl, rfl⟩

theorem adaptLoop_no_usage (msgs : List Msg) :
    ∀ (st : AdapterState),
    (∀ m ∈ msgs, NoUsageMsg m) →
    st.stepUsages = [] → st.resultMessageUsage = none →
    st.resultMessageCost = none →
    (adaptLoop st 0 none msgs).state.stepUsages = []
    ∧ (adaptLoop st 0 none msgs).state.resultMessageUsage = none
    ∧ (adaptLoop st 0 none msgs).state.resultMessageCost = none
    ∧ (adaptLoop st 0 none msgs).totalCostUsd = 0
    ∧ (adaptLoop st 0 none msgs).totalUsage = none
    ∧ (adaptLoop st 0 none msgs).raised = none := by
  induction msgs with
  | nil =>
    intro st hmsgs h1 h2 h3
    exact ⟨h1, h2, h3, rfl, rfl, rfl⟩
  | cons m rest ih =>
    intro st hmsgs h1 h2 h3
    have hm := hmsgs m (List.mem_cons_self m rest)
    have hrest := fun m' hm' => hmsgs m' (List.mem_cons_of_mem m hm')
    have htrack : track_usage st m = st := track_usage_of_no_usage st m hm.1
    have hcost1 : rmLoopCost m 0 = 0 := by
      unfold rmLoopCost
      rw [hm.2.1]
      split <;> rfl
    have husage1 : rmLoopUsage m none = none := by
      unfold rmLoopUsage
      rw [hm.1]
      split <;> rfl
    have hraise : rmLoopRaises m = false := by
      unfold rmLoopRaises
      rw [hm.1]
      split <;> rfl
    have hpres := convert_message_preserves_acc st m hm
    unfold adaptLoop
    rw [htrack, hcost1, husage1, hraise]
    simp only [Bool.false_eq_true, if_false]
    have hrec := ih (convert_message st m).2 hrest
      (hpres.1.trans h1) (hpres.2.1.trans h2) (hpres.2.2.trans h3)
    exact hrec

/-- C3: the `RunFinished` event carries the accumulator's final
authoritative values — a truthy end-of-run summary usage or cost wins over
the accumulated per-message values, and a run in which no usage was ever
observed finishes with `total_cost_usd = None` and `usage = None`, never a
synthesized zero record.  In particular, for a run whose assistant message
carries `usage = {input_tokens: 10}` and whose result message carries
`total_cost_usd = 0.002`, `RunFinished` has `total_cost_usd = 0.002` and
`usage.input_tokens = 10`. -/
theorem c3_final_usage_cost :
    (⟨1, 500, by decide, by decide⟩ : Rat) = 1/500
    ∧ (adapt_message_stream (initAdapter "run-1")
        [{ ty := some "AssistantMessage", className := "AssistantMessage",
           id := some "msg-1",
           usage := some (.pdict [("input_tokens", .pint 10)]) },
         { ty := some "ResultMessage", className := "ResultMessage",
           total_cost_usd := some ⟨1, 500, by decide, by decide⟩ }]
        none).getLast? =
      some (.runFinished "run-1" (some ⟨1, 500, by decide, by decide⟩)
        (some [("input_tokens", .pint 10), ("output_tokens", .pint 0),
               ("cache_creation_input_tokens", .pint 0),
               ("cache_read_input_tokens", .pint 0)]))
    ∧ (∀ (st : AdapterState) (lu : Option (List (String × PyVal)))
        (u : List (String × PyVal)),
        st.resultMessageUsage = some u → u ≠ [] → finishUsage st lu = some u)
    ∧ (∀ (st : AdapterState) (lc : Rat) (c : Rat),
        st.resultMessageCost = some c → c ≠ 0 → finishCost st lc = c)
    ∧ (∀ (r : String) (msgs : List Msg), (∀ m ∈ msgs, NoUsageMsg m) →
        (adapt_message_stream (initAdapter r) msgs none).getLast? =
          some (.runFinished r none none)) := by
  refine ⟨by rw [Rat.mk'_eq_divInt, Rat.divInt_eq_div]; norm_num, by rfl,
    ?_, ?_, ?_⟩
  · intro st lu u h1 h2
    simp [finishUsage, h1, h2]
  · intro st lc c h1 h2
    simp [finishCost, h1, h2]
  · intro r msgs hmsgs
    obtain ⟨hsu, hru, hrc, hcost, husage, hraised⟩ :=
      adaptLoop_no_usage msgs (initAdapter r) hmsgs rfl rfl rfl
    have hfc : finishCost (adaptLoop (initAdapter r) 0 none msgs).state
        (adaptLoop (initAdapter r) 0 none msgs).totalCostUsd = 0 := by
      simp [finishCost, hrc, hcost]
    have hfu : finishUsage (adaptLoop (initAdapter r) 0 none msgs).state
        (adaptLoop (initAdapter r) 0 none msgs).totalUsage = none := by
      simp [finishUsage, hru, hsu, husage]
    have heq : adapt_message_stream (initAdapter r) msgs none =
        Event.runStarted r ::
          ((adaptLoop (initAdapter r) 0 none msgs).events ++
            [Event.runFinished r none none]) := by
      simp [adapt_message_stream, initAdapter_runId, hraised, hfc, hfu]
    rw [heq, ← List.cons_append, List.getLast?_concat]

/-- Witness for C3's hypothesized conjuncts at concrete inputs. -/
theorem c3_final_usage_cost_witness :
    finishUsage ⟨"r", [], [], some [("input_tokens", .pint 7)], none, 0⟩
      none = some [("input_tokens", .pint 7)]
    ∧ finishCost ⟨"r", [], [], none, some (3/2), 0⟩ 0 = 3/2
    ∧ (adapt_message_stream (initAdapter "w") [] none).getLast? =
      some (.runFinished "w" none none) :=
  ⟨c3_final_usage_cost.2.2.1 _ _ _ rfl (by simp),
   c3_final_usage_cost.2.2.2.1 _ _ _ rfl (by norm_num),
   c3_final_usage_cost.2.2.2.2 "w" []
     (fun m hm => absurd hm (List.not_mem_nil m))⟩

/-!
## C4: usage-deduplication idempotence
-/

theorem track_usage_records (st : AdapterState) (m : Msg) (u : PyVal)
    (hassist : m.discriminant = "AssistantMessage" ∨
      m.className = "AssistantMessage")
    (hu : m.usage = some u) (htr : pyTruthy u = true)
    (hnotin : (effectiveMsgId m st.gensym).1 ∉ st.processedMessageIds) :
    track_usage st m = { st with
      gensym := (effectiveMsgId m st.gensym).2,
      processedMessageIds :=
        st.processedMessageIds ++ [(effectiveMsgId m st.gensym).1],
      stepUsages := st.stepUsages ++
        [((effectiveMsgId m st.gensym).1, usageToDict u)] } := by
  simp only [track_usage, hu]
  rw [if_neg (not_not_intro hassist), if_neg (not_not_intro htr),
    if_neg hnotin]

theorem track_usage_skips (st : AdapterState) (m : Msg) (u : PyVal)
    (hassist : m.discriminant = "AssistantMessage" ∨
      m.className = "AssistantMessage")
    (hu : m.usage = some u) (htr : pyTruthy u = true)
    (hin : (effectiveMsgId m st.gensym).1 ∈ st.processedMessageIds) :
    track_usage st m = { st with gensym := (effectiveMsgId m st.gensym).2 } := by
  simp only [track_usage, hu]
  rw [if_neg (not_not_intro hassist), if_neg (not_not_intro htr), if_pos hin]

theorem effectiveMsgId_of_truthy (m : Msg)
    (h : strTruthy m.id = true ∨ strTruthy m.message_id = true) :
    ∃ s, ∀ g, effectiveMsgId m g = (.given s, g) := by
  rcases hmi : m.id with _ | s
  · rcases hmm : m.message_id with _ | s2
    · rw [hmi, hmm] at h
      simp [strTruthy] at h
    · rcases h with h | h
      · rw [hmi] at h
        simp [strTruthy] at h
      · rw [hmm] at h
        simp only [strTruthy, ne_eq, decide_eq_true_eq] at h
        exact ⟨s2, fun g => by simp [effectiveMsgId, fallbackMsgId, hmi, hmm, h]⟩
  · by_cases hs : s = ""
    · subst hs
      rcases hmm : m.message_id with _ | s2
      · rcases h with h | h
        · rw [hmi] at h
          simp [strTruthy] at h
        · rw [hmm] at h
          simp [strTruthy] at h
      · rcases h with h | h
        · rw [hmi] at h
          simp [strTruthy] at h
        · rw [hmm] at h
          simp only [strTruthy, ne_eq, decide_eq_true_eq] at h
          exact ⟨s2, fun g => by
            simp [effectiveMsgId, fallbackMsgId, hmi, hmm, h]⟩
    · exact ⟨s, fun g => by simp [effectiveMsgId, hmi, hs]⟩

/-- C4 (amended): usage tracking is idempotent for every message carrying a
truthy own identifier (`id`, else `message_id`); a message with neither is
assigned a fresh synthetic identifier on each invocation, so feeding it
twice records its usage twice. -/
theorem c4_track_usage_idempotent_with_id :
    (∀ (st : AdapterState) (m : Msg),
      strTruthy m.id = true ∨ strTruthy m.message_id = true →
      track_usage (track_usage st m) m = track_usage st m)
    ∧ (∀ (st : AdapterState) (m : Msg) (u : PyVal),
      (m.discriminant = "AssistantMessage" ∨
        m.className = "AssistantMessage") →
      m.usage = some u → pyTruthy u = true →
      m.id = none → m.message_id = none →
      (∀ n, st.gensym ≤ n → MsgId.synth n ∉ st.processedMessageIds) →
      (track_usage st m).stepUsages.length = st.stepUsages.length + 1
      ∧ (track_usage (track_usage st m) m).stepUsages.length =
          st.stepUsages.length + 2) := by
  constructor
  · intro st m hid
    by_cases hassist : m.discriminant = "AssistantMessage" ∨
      m.className = "AssistantMessage"
    · rcases hu : m.usage with _ | u
      · rw [track_usage_of_no_usage st m hu, track_usage_of_no_usage st m hu]
      · by_cases htr : pyTruthy u = true
        · obtain ⟨s, hs⟩ := effectiveMsgId_of_truthy m hid
          by_cases hin : MsgId.given s ∈ st.processedMessageIds
          · have h1 : track_usage st m = st := by
              rw [track_usage_skips st m u hassist hu htr
                (by rw [hs]; exact hin), hs]
            rw [h1, h1]
          · have h1 := track_usage_records st m u hassist hu htr
              (by rw [hs]; exact hin)
            rw [hs] at h1
            have hmem : (effectiveMsgId m (track_usage st m).gensym).1 ∈
                (track_usage st m).processedMessageIds := by
              rw [hs, h1]
              simp
            have h2 := track_usage_skips (track_usage st m) m u hassist hu
              htr hmem
            rw [h2, hs]
        · have hskip : track_usage st m = st := by
            simp only [track_usage, hu]
            rw [if_neg (not_not_intro hassist), if_pos htr]
          rw [hskip, hskip]
    · have hskip : ∀ st' : AdapterState, track_usage st' m = st' := by
        intro st'
        simp only [track_usage]
        rw [if_pos hassist]
      rw [hskip, hskip]
  · intro st m u hassist hu htr hid1 hid2 hfresh
    have heff : ∀ g, effectiveMsgId m g = (.synth g, g + 1) := by
      intro g
      simp [effectiveMsgId, fallbackMsgId, hid1, hid2]
    have h1 := track_usage_records st m u hassist hu htr
      (by rw [heff]; exact hfresh st.gensym (Nat.le_refl _))
    rw [heff] at h1
    have hmem2 : (effectiveMsgId m (track_usage st m).gensym).1 ∉
        (track_usage st m).processedMessageIds := by
      rw [heff, h1]
      intro hmem
      rcases List.mem_append.mp hmem with h | h
      · exact hfresh _ (by simp) h
      · have hx := List.mem_singleton.mp h
        simp only [MsgId.synth.injEq] at hx
        omega
    have h2 := track_usage_records (track_usage st m) m u hassist hu htr hmem2
    constructor
    · rw [h1]
      simp
    · rw [h2, h1]
      simp

/-- Witness for C4's amended theorem at concrete inputs. -/
theorem c4_track_usage_idempotent_with_id_witness :
    track_usage
      (track_usage (initAdapter "r")
        { ty := some "AssistantMessage", className := "AssistantMessage",
          id := some "m-1", usage := some (.pdict [("input_tokens", .pint 4)]) })
      { ty := some "AssistantMessage", className := "AssistantMessage",
        id := some "m-1", usage := some (.pdict [("input_tokens", .pint 4)]) } =
    track_usage (initAdapter "r")
      { ty := some "AssistantMessage", className := "AssistantMessage",
        id := some "m-1", usage := some (.pdict [("input_tokens", .pint 4)]) }
    ∧ (track_usage (initAdapter "r")
        { ty := some "AssistantMessage", className := "AssistantMessage",
          usage := some (.pdict [("input_tokens", .pint 5)]) }).stepUsages.length
        = 1
    ∧ (track_usage
        (track_usage (initAdapter "r")
          { ty := some "AssistantMessage", className := "AssistantMessage",
            usage := some (.pdict [("input_tokens", .pint 5)]) })
        { ty := some "AssistantMessage", className := "AssistantMessage",
          usage := some (.pdict [("input_tokens", .pint 5)]) }).stepUsages.length
        = 2 := by
  refine ⟨c4_track_usage_idempotent_with_id.1 _ _ (Or.inl (by decide)), ?_, ?_⟩
  · have h := (c4_track_usage_idempotent_with_id.2 (initAdapter "r")
      { ty := some "AssistantMessage", className := "AssistantMessage",
        usage := some (.pdict [("input_tokens", .pint 5)]) }
      (.pdict [("input_tokens", .pint 5)])
      (Or.inl (by decide)) rfl (by decide) rfl rfl
      (fun n _ hmem => absurd hmem (List.not_mem_nil _))).1
    simpa using h
  · have h := (c4_track_usage_idempotent_with_id.2 (initAdapter "r")
      { ty := some "AssistantMessage", className := "AssistantMessage",
        usage := some (.pdict [("input_tokens", .pint 5)]) }
      (.pdict [("input_tokens", .pint 5)])
      (Or.inl (by decide)) rfl (by decide) rfl rfl
      (fun n _ hmem => absurd hmem (List.not_mem_nil _))).2
    simpa using h

/-- C4 counterexample: feeding the same usage-bearing, identifier-less
message twice does not yield the same aggregate as feeding it once — the
second feed draws a fresh synthetic identifier and the usage is counted
again (10 tokens instead of 5). -/
theorem c4_counterexample :
    sumUsageKey
      (track_usage
        (track_usage (initAdapter "r")
          { ty := some "AssistantMessage", className := "AssistantMessage",
            usage := some (.pdict [("input_tokens", .pint 5)]) })
        { ty := some "AssistantMessage", className := "AssistantMessage",
          usage := some (.pdict [("input_tokens", .pint 5)]) }).stepUsages
      "input_tokens" = 10
    ∧ sumUsageKey
      (track_usage (initAdapter "r")
        { ty := some "AssistantMessage", className := "AssistantMessage",
          usage := some (.pdict [("input_tokens", .pint 5)]) }).stepUsages
      "input_tokens" = 5
    ∧ aggregate_usage
      (track_usage
        (track_usage (initAdapter "r")
          { ty := some "AssistantMessage", className := "AssistantMessage",
            usage := some (.pdict [("input_tokens", .pint 5)]) })
        { ty := some "AssistantMessage", className := "AssistantMessage",
          usage := some (.pdict [("input_tokens", .pint 5)]) }).stepUsages ≠
      aggregate_usage
        (track_usage (initAdapter "r")
          { ty := some "AssistantMessage", className := "AssistantMessage",
            usage := some (.pdict [("input_tokens", .pint 5)]) }).stepUsages := by
  refine ⟨rfl, rfl, ?_⟩
  intro h
  have e1 : aggregate_usage
      (track_usage
        (track_usage (initAdapter "r")
          { ty := some "AssistantMessage", className := "AssistantMessage",
            usage := some (.pdict [("input_tokens", .pint 5)]) })
        { ty := some "AssistantMessage", className := "AssistantMessage",
          usage := some (.pdict [("input_tokens", .pint 5)]) }).stepUsages =
      some [("input_tokens", .pint 10), ("output_tokens", .pint 0),
        ("cache_creation_input_tokens", .pint 0),
        ("cache_read_input_tokens", .pint 0)] := rfl
  have e2 : aggregate_usage
      (track_usage (initAdapter "r")
        { ty := some "AssistantMessage", className := "AssistantMessage",
          usage := some (.pdict [("input_tokens", .pint 5)]) }).stepUsages =
      some [("input_tokens", .pint 5), ("output_tokens", .pint 0),
        ("cache_creation_input_tokens", .pint 0),
        ("cache_read_input_tokens", .pint 0)] := rfl
  rw [e1, e2] at h
  simp at h

/-!
## C8: fallback dispatch for unknown messages and blocks
-/

/-- C8: a message whose discriminant matches no registered converter is
converted, without raising (the dispatcher is a total function), to exactly
one `CustomEvent` whose type is the raw discriminant and whose data carries
the string form of the message; a content block matching neither the type
table nor any class-name/duck-typed shape degrades to exactly one
`CustomEvent` of type `UnknownBlock` carrying the block type and its string
representation. -/
theorem c8_unknown_fallback :
    (∀ (st : AdapterState) (m : Msg),
      m.discriminant ≠ "SystemMessage" → m.discriminant ≠ "UserMessage" →
      m.discriminant ≠ "AssistantMessage" → m.discriminant ≠ "ResultMessage" →
      m.discriminant ≠ "ToolMessage" → m.discriminant ≠ "FunctionMessage" →
      m.discriminant ≠ "ToolResultMessage" →
      convert_message st m =
        ([.customEvent m.discriminant [("raw", .pstr m.srepr)]], st))
    ∧ (∀ (g : Nat) (b : Block),
      (∀ t, b.ty = some t →
        t ≠ "thinking" ∧ t ≠ "text" ∧ t ≠ "tool_use" ∧ t ≠ "tool_result") →
      b.className ≠ "ThinkingBlock" → b.thinking = none →
      b.className ≠ "TextBlock" → b.text = none →
      b.className ≠ "ToolUseBlock" →
      ¬(b.name.isSome ∧ b.input.isSome ∧ b.id.isSome) →
      b.className ≠ "ToolResultBlock" →
      ¬(b.tool_use_id.isSome ∧ b.content.isSome) →
      blockConvert g b =
        ([.customEvent "UnknownBlock"
            [("block_type", optStrVal b.ty), ("block_repr", .pstr b.srepr)]],
          g)) := by
  constructor
  · intro st m h1 h2 h3 h4 h5 h6 h7
    dsimp only [convert_message]
    rw [if_neg h1, if_neg h2, if_neg h3, if_neg h4,
      if_neg (by rintro (h | h | h) <;> [exact h5 h; exact h6 h; exact h7 h])]
  · intro g b hty hc1 hth hc2 htx hc3 htu hc4 htr
    have hshape : blockConvertByShape g b =
        ([.customEvent "UnknownBlock"
            [("block_type", optStrVal b.ty), ("block_repr", .pstr b.srepr)]],
          g) := by
      unfold blockConvertByShape
      rw [if_neg (by rintro (h | h); exact hc1 h; simp [hth] at h),
        if_neg (by rintro (h | h); exact hc2 h; simp [htx] at h),
        if_neg (by rintro (h | h); exact hc3 h; exact htu h),
        if_neg (by rintro (h | h); exact hc4 h; exact htr h)]
    unfold blockConvert
    rcases hb : b.ty with _ | t
    · rw [hb] at hshape
      exact hshape
    · obtain ⟨n1, n2, n3, n4⟩ := hty t hb
      rw [hb] at hshape
      simp only [if_neg n1, if_neg n2, if_neg n3, if_neg n4]
      exact hshape

/-- Witness for C8 at a concrete unknown message and block. -/
theorem c8_unknown_fallback_witness :
    convert_message (initAdapter "r")
      { ty := some "BananaMessage", className := "BananaMessage",
        srepr := "BananaMessage()" } =
      ([.customEvent "BananaMessage" [("raw", .pstr "BananaMessage()")]],
        initAdapter "r")
    ∧ blockConvert 7
      { ty := some "banana", className := "BananaBlock",
        srepr := "BananaBlock()" } =
      ([.customEvent "UnknownBlock"
          [("block_type", optStrVal (some "banana")),
           ("block_repr", .pstr "BananaBlock()")]], 7) :=
  ⟨c8_unknown_fallback.1 _ _ (by decide) (by decide) (by decide) (by decide)
     (by decide) (by decide) (by decide),
   c8_unknown_fallback.2 7 _
     (fun t ht => by
       injection ht with ht
       subst ht
       exact ⟨by decide, by decide, by decide, by decide⟩)
     (by decide) rfl (by decide) rfl (by decide) (by rintro ⟨h, -⟩; simp at h)
     (by decide) (by rintro ⟨h, -⟩; simp at h)⟩

/-!
## C10: tool-result events carry stringified content and boolean error flag
-/

/-- Is this event a `ToolCallResult`? -/
def Event.isToolCallResultEv : Event → Bool
  | .toolCallResult _ _ _ _ => true
  | _ => false

theorem convert_thinking_no_tcr (g : Nat) (b : Block) :
    ∀ e ∈ (convert_thinking g b).1, e.isToolCallResultEv = false := by
  intro e he
  rcases List.mem_append.mp he with h | h
  · rcases List.mem_cons.mp h with rfl | h2
    · rfl
    · obtain ⟨c, _, rfl⟩ := List.mem_map.mp h2
      rfl
  · rcases List.mem_cons.mp h with rfl | h2
    · rfl
    · exact absurd h2 (List.not_mem_nil e)

theorem convert_text_no_tcr (g : Nat) (b : Block) :
    ∀ e ∈ (convert_text g b).1, e.isToolCallResultEv = false := by
  intro e he
  rcases List.mem_append.mp he with h | h
  · rcases List.mem_cons.mp h with rfl | h2
    · rfl
    · obtain ⟨c, _, rfl⟩ := List.mem_map.mp h2
      rfl
  · rcases List.mem_cons.mp h with rfl | h2
    · rfl
    · exact absurd h2 (List.not_mem_nil e)

theorem convert_tool_use_no_tcr (g : Nat) (b : Block) :
    ∀ e ∈ (convert_tool_use g b).1, e.isToolCallResultEv = false := by
  intro e he
  rcases List.mem_append.mp he with h | h
  · rcases List.mem_cons.mp h with rfl | h2
    · rfl
    · obtain ⟨c, _, rfl⟩ := List.mem_map.mp h2
      rfl
  · rcases List.mem_cons.mp h with rfl | h2
    · rfl
    · exact absurd h2 (List.not_mem_nil e)

theorem blockConvertByShape_tcr (g : Nat) (b : Block) (mid tcid : String)
    (cv : PyVal) (ie : Bool)
    (he : Event.toolCallResult mid tcid cv ie ∈ (blockConvertByShape g b).1) :
    cv = .pstr (pyStr (b.content.getD (.pstr "")))
    ∧ ie = pyTruthy (b.is_error.getD (.pbool false)) := by
  unfold blockConvertByShape at he
  split at he
  · have := convert_thinking_no_tcr _ _ _ he
    simp [Event.isToolCallResultEv] at this
  · split at he
    · have := convert_text_no_tcr _ _ _ he
      simp [Event.isToolCallResultEv] at this
    · split at he
      · have := convert_tool_use_no_tcr _ _ _ he
        simp [Event.isToolCallResultEv] at this
      · split at he
        · have h := List.mem_singleton.mp he
          injection h with h1 h2 h3 h4
          exact ⟨h3, h4⟩
        · exact Event.noConfusion (List.mem_singleton.mp he)

/-- C10: every `ToolCallResult` event emitted by the content-block
converter or the tool-message converter carries as `content` the `str()`
form of the upstream content value — whatever its shape (dict, list,
`None`, string) — and as `is_error` the boolean truthiness of the upstream
`is_error` value. -/
theorem c10_tool_result_content_str :
    (∀ (g : Nat) (b : Block) (mid tcid : String) (cv : PyVal) (ie : Bool),
      Event.toolCallResult mid tcid cv ie ∈ (blockConvert g b).1 →
      cv = .pstr (pyStr (b.content.getD (.pstr "")))
      ∧ ie = pyTruthy (b.is_error.getD (.pbool false)))
    ∧ (∀ (g : Nat) (m : Msg) (mid tcid : String) (cv : PyVal) (ie : Bool),
      Event.toolCallResult mid tcid cv ie ∈ (toolMessageConvert g m).1 →
      cv = .pstr (match m.content with
        | some c => msgContentStr c
        | none => pyStr (m.result.getD (.pstr "")))
      ∧ ie = pyTruthy (m.is_error.getD (.pbool false))) := by
  constructor
  · intro g b mid tcid cv ie he
    unfold blockConvert at he
    split at he
    · split at he
      · have := convert_thinking_no_tcr _ _ _ he
        simp [Event.isToolCallResultEv] at this
      · split at he
        · have := convert_text_no_tcr _ _ _ he
          simp [Event.isToolCallResultEv] at this
        · split at he
          · have := convert_tool_use_no_tcr _ _ _ he
            simp [Event.isToolCallResultEv] at this
          · split at he
            · have h := List.mem_singleton.mp he
              injection h with h1 h2 h3 h4
              exact ⟨h3, h4⟩
            · exact blockConvertByShape_tcr _ _ _ _ _ _ he
    · exact blockConvertByShape_tcr _ _ _ _ _ _ he
  · intro g m mid tcid cv ie he
    have h := List.mem_singleton.mp he
    injection h with h1 h2 h3 h4
    exact ⟨h3, h4⟩

/-- Witness for C10 at a concrete dict-content tool-result block and a
list-content tool message. -/
theorem c10_tool_result_content_str_witness :
    ((PyVal.pstr "\x7b'a': 1\x7d") =
      .pstr (pyStr ((some (PyVal.pdict [("a", .pint 1)])).getD (.pstr "")))
      ∧ true = pyTruthy ((some (PyVal.pbool true)).getD (.pbool false)))
    ∧ ((PyVal.pstr "[1, None]") =
      .pstr (match (none : Option MsgContent) with
        | some c => msgContentStr c
        | none => pyStr ((some (PyVal.plist [.pint 1, .pnone])).getD
            (.pstr "")))
      ∧ false = pyTruthy ((none : Option PyVal).getD (.pbool false))) :=
  ⟨c10_tool_result_content_str.1 0
      { ty := some "tool_result", tool_use_id := some "t1",
        content := some (.pdict [("a", .pint 1)]),
        is_error := some (.pbool true) }
      (genId 1) "t1" (.pstr "\x7b'a': 1\x7d") true
      (List.mem_singleton.mpr (by rfl)),
   c10_tool_result_content_str.2 0
      { ty := some "ToolMessage", className := "ToolMessage",
        tool_call_id := some "t2",
        result := some (.plist [.pint 1, .pnone]) }
      (genId 1) "t2" (.pstr "[1, None]") false
      (List.mem_singleton.mpr (by rfl))⟩

/-!
## C6: session-binding collision and overwrite protection
-/

/-- C6: binding a session identifier already owned by another task returns
`False` and leaves the database unchanged (neither task's binding is
mutated); likewise, a task whose session identifier is already set to a
different value keeps its original binding and the call returns `False`. -/
theorem c6_binding_collision_frame :
    (∀ (db : DB) (A B : TaskRec) (sid : String),
      A ∈ db.tasks → A.sessionId = some sid → A.tid ≠ B.tid →
      B.sessionId = none →
      update_task_session_id db B sid = (false, db))
    ∧ (∀ (db : DB) (B : TaskRec) (old nsid : String),
      B.sessionId = some old → old ≠ "" → old ≠ nsid →
      update_task_session_id db B nsid = (false, db)) := by
  constructor
  · intro db A B sid hmem hA hne hB
    simp [update_task_session_id, strTruthy, hB]
    exact ⟨A, hmem, hA, hne⟩
  · intro db B old nsid hB h2 h3
    simp [update_task_session_id, strTruthy, hB, h2, h3]

/-- Witness for C6 at a concrete two-task database. -/
theorem c6_binding_collision_frame_witness :
    update_task_session_id ⟨[⟨0, some "S"⟩, ⟨1, none⟩], [], [], 2⟩
      ⟨1, none⟩ "S" = (false, ⟨[⟨0, some "S"⟩, ⟨1, none⟩], [], [], 2⟩)
    ∧ update_task_session_id ⟨[⟨2, some "X"⟩], [], [], 3⟩
      ⟨2, some "X"⟩ "Y" = (false, ⟨[⟨2, some "X"⟩], [], [], 3⟩) :=
  ⟨c6_binding_collision_frame.1 _ ⟨0, some "S"⟩ ⟨1, none⟩ "S"
     (List.mem_cons_self _ _) rfl (by decide) rfl,
   c6_binding_collision_frame.2 _ ⟨2, some "X"⟩ "X" "Y" rfl (by decide)
     (by decide)⟩

/-!
## C7: collision handling during a run
-/

/-- C7 counterexample: with task T1 (`tid 0`) owning session `"S"` and a
request supplying neither `task_id` nor `session_id`, processing the
adapter's event stream for a system init message reporting `"S"` leaves the
lazily created task T2 (`tid 1`) active — the generator does **not** switch
to the pre-existing owner T1 — while neither task's binding is mutated. -/
theorem c7_counterexample :
    initGen { message := "hi" } ⟨[⟨0, some "S"⟩], [], [], 1⟩ =
      some (mkInit none ⟨[⟨0, some "S"⟩], [], [], 1⟩)
    ∧ ((adapt_message_stream (initAdapter "r")
          [{ ty := some "SystemMessage", className := "SystemMessage",
             subtype := some "init",
             data := some (.pdict [("session_id", .pstr "S")]) }] none).foldl
        processEvent (mkInit none ⟨[⟨0, some "S"⟩], [], [], 1⟩)).task = some 1
    ∧ ((adapt_message_stream (initAdapter "r")
          [{ ty := some "SystemMessage", className := "SystemMessage",
             subtype := some "init",
             data := some (.pdict [("session_id", .pstr "S")]) }] none).foldl
        processEvent (mkInit none ⟨[⟨0, some "S"⟩], [], [], 1⟩)).db.tasks =
      [⟨0, some "S"⟩, ⟨1, none⟩]
    ∧ (some 1 : Option Nat) ≠ some 0 := by
  exact ⟨rfl, rfl, rfl, by decide⟩

/-- C7 (amended): on a session-identifier collision discovered while an
active task exists (the lazily created task, established at `RunStarted`,
before any session id can be discovered), the generator leaves both tasks'
bindings and the active task unchanged and continues under the active task;
the switch to the session's owning task happens only when no active task
exists at extraction time. -/
theorem c7_collision_keeps_active_task :
    (∀ (st : GenState) (t : Nat) (trec : TaskRec) (nsid : String),
      st.task = some t →
      st.db.tasks.find? (fun tr => tr.tid = t) = some trec →
      strTruthy trec.sessionId = false →
      st.db.tasks.any (fun tr => tr.sessionId = some nsid ∧ tr.tid ≠ t) =
        true →
      applySessionBinding st nsid = st)
    ∧ (∀ (st : GenState) (nsid : String) (owner : TaskRec),
      st.task = none →
      st.db.tasks.find? (fun tr => tr.sessionId = some nsid) = some owner →
      applySessionBinding st nsid = { st with task := some owner.tid }) := by
  constructor
  · intro st t trec nsid h1 h2 h3 h4
    unfold applySessionBinding
    simp only [h1, h2]
    rw [if_pos (by simp [h3]), if_pos h4]
  · intro st nsid owner h1 h2
    unfold applySessionBinding
    simp only [h1, h2]

/-- Witness for C7's amended theorem at a concrete collision state. -/
theorem c7_collision_keeps_active_task_witness :
    applySessionBinding
      ⟨⟨[⟨0, some "S"⟩, ⟨1, none⟩], [], [], 2⟩, some 1, 4, some "S",
        true, true, true, none, [], false⟩ "S" =
      ⟨⟨[⟨0, some "S"⟩, ⟨1, none⟩], [], [], 2⟩, some 1, 4, some "S",
        true, true, true, none, [], false⟩
    ∧ applySessionBinding
      ⟨⟨[⟨0, some "S"⟩], [], [], 1⟩, none, 0, none,
        false, false, false, none, [], false⟩ "S" =
      ⟨⟨[⟨0, some "S"⟩], [], [], 1⟩, some 0, 0, none,
        false, false, false, none, [], false⟩ :=
  ⟨c7_collision_keeps_active_task.1 _ 1 ⟨1, none⟩ "S" rfl rfl rfl rfl,
   c7_collision_keeps_active_task.2 _ "S" ⟨0, some "S"⟩ rfl rfl⟩

/-!
## C9: empty-turn cleanup
-/

/-- C9 counterexample: a lazily created task whose only assistant content is
whitespace (`" "`) is **kept** at run end — `assistant_content_parts` is
non-empty, so the cleanup branch is never reached — even though no
assistant-authored message was ever persisted for it. -/
theorem c9_counterexample :
    ((runGenerator { message := "hi" } ⟨[], [], [], 0⟩
        (adapt_message_stream (initAdapter "r")
          [{ ty := some "AssistantMessage", className := "AssistantMessage",
             content := some (.strContent " ") }] none)).map
      (fun st => st.task)) = some (some 0)
    ∧ ((runGenerator { message := "hi" } ⟨[], [], [], 0⟩
        (adapt_message_stream (initAdapter "r")
          [{ ty := some "AssistantMessage", className := "AssistantMessage",
             content := some (.strContent " ") }] none)).map
      (fun st => st.db.tasks)) = some [⟨0, none⟩]
    ∧ ((runGenerator { message := "hi" } ⟨[], [], [], 0⟩
        (adapt_message_stream (initAdapter "r")
          [{ ty := some "AssistantMessage", className := "AssistantMessage",
             content := some (.strContent " ") }] none)).map
      (fun st => countAssistantMessages st.db 0)) = some 0
    ∧ ((runGenerator { message := "hi" } ⟨[], [], [], 0⟩
        (adapt_message_stream (initAdapter "r")
          [{ ty := some "AssistantMessage", className := "AssistantMessage",
             content := some (.strContent " ") }] none)).map
      (fun st => st.assistantParts)) = some [" "] := by
  exact ⟨rfl, rfl, rfl, rfl⟩

/-- C9 (amended): the end-of-run cleanup never deletes anything when the
caller supplied a `task_id`; a task with **no collected assistant-content
deltas** and no persisted assistant message is deleted when the caller
supplied no `task_id`; but a task whose collected deltas are all
whitespace is kept (with no assistant message persisted), contrary to the
claim's "no assistant-authored message ⇒ deleted". -/
theorem c9_empty_turn_cleanup :
    (∀ (req : ResponseRequest) (st : GenState),
      req.task_id.isSome →
      (finishGen req st).db.tasks = st.db.tasks
      ∧ (finishGen req st).task = st.task)
    ∧ (∀ (req : ResponseRequest) (st : GenState) (t : Nat),
      req.task_id = none → st.task = some t → st.assistantParts = [] →
      countAssistantMessages st.db t = 0 →
      finishGen req st = { st with db := delete_task st.db t, task := none })
    ∧ (∀ (req : ResponseRequest) (st : GenState) (t : Nat),
      st.task = some t → st.assistantParts ≠ [] →
      pyStrip (joinStrings st.assistantParts) = "" →
      finishGen req st = st) := by
  refine ⟨?_, ?_, ?_⟩
  · intro req st hsome
    have hnone : req.task_id.isNone = false := by
      rcases h : req.task_id with _ | v
      · rw [h] at hsome
        simp at hsome
      · rfl
    unfold finishGen
    split
    · split
      · split
        · exact ⟨rfl, rfl⟩
        · exact ⟨rfl, rfl⟩
      · split
        · rename_i hisNone
          rw [hnone] at hisNone
          simp at hisNone
        · exact ⟨rfl, rfl⟩
    · exact ⟨rfl, rfl⟩
  · intro req st t hreq hst hparts hcount
    unfold finishGen
    split
    · rename_i t2 heq
      rw [hst] at heq
      injection heq with heq2
      subst heq2
      rw [if_neg (by simp [hparts]), if_pos (by simp [hreq]), if_pos hcount]
    · rename_i heq
      rw [hst] at heq
      exact absurd heq (by simp)
  · intro req st t hst hparts htrim
    unfold finishGen
    split
    · rw [if_pos (by simpa [List.isEmpty_iff] using hparts),
        if_neg (by simp [htrim])]
    · rfl

/-- Witness for C9's amended theorem at concrete states. -/
theorem c9_empty_turn_cleanup_witness :
    ((finishGen { message := "m", task_id := some 3 }
        ⟨⟨[⟨3, none⟩], [], [], 4⟩, some 3, 0, none, true, true, false,
          none, [], false⟩).db.tasks = [⟨3, none⟩]
      ∧ (finishGen { message := "m", task_id := some 3 }
        ⟨⟨[⟨3, none⟩], [], [], 4⟩, some 3, 0, none, true, true, false,
          none, [], false⟩).task = some 3)
    ∧ finishGen { message := "m" }
        ⟨⟨[⟨0, none⟩], [], [(0, "user")], 1⟩, some 0, 4, none, true, true,
          false, none, [], false⟩ =
      { db := delete_task ⟨[⟨0, none⟩], [], [(0, "user")], 1⟩ 0,
        task := none, eventSeq := 4, newSessionId := none,
        userMessageSaved := true, runStartedSaved := true,
        hasValidResponse := false, assistantMessageId := none,
        assistantParts := [], sessionIdSent := false }
    ∧ finishGen { message := "m" }
        ⟨⟨[⟨0, none⟩], [], [(0, "user")], 1⟩, some 0, 4, none, true, true,
          true, some "a", [" "], false⟩ =
      ⟨⟨[⟨0, none⟩], [], [(0, "user")], 1⟩, some 0, 4, none, true, true,
        true, some "a", [" "], false⟩ :=
  ⟨c9_empty_turn_cleanup.1 _ _ rfl,
   c9_empty_turn_cleanup.2.1 _ _ 0 rfl rfl rfl rfl,
   c9_empty_turn_cleanup.2.2 _ _ 0 rfl (by decide) rfl⟩


/-!
## Helper lemmas: sequence-number contiguity (C5)
-/

theorem seqsOf_events_congr (db db' : DB) (t : Nat)
    (h : db.events = db'.events) : seqsOf db t = seqsOf db' t := by
  simp [seqsOf, h]

theorem seqsOf_save_event_self (db : DB) (t : Nat) (ty : String) (s : Nat) :
    seqsOf (save_event db t ty s) t = seqsOf db t ++ [s] := by
  simp [seqsOf, save_event, List.filter_append]

theorem seqsOf_create_user_message (db : DB) (t u : Nat) :
    seqsOf (create_user_message db u) t = seqsOf db t := rfl

theorem get_max_sequence_eq_foldl (db : DB) (t : Nat) :
    get_max_sequence db t = ((seqsOf db t).map Int.ofNat).foldl max (-1) := by
  unfold get_max_sequence seqsOf
  rw [List.map_map]
  rfl

theorem foldl_max_intCast_range (k : Nat) :
    ((List.range k).map Int.ofNat).foldl max (-1) = (k : Int) - 1 := by
  induction k with
  | zero => decide
  | succ k ih =>
    rw [List.range_succ, List.map_append, List.foldl_append, ih]
    have hk : ((k : Int) - 1) ≤ Int.ofNat k := by
      simp only [Int.ofNat_eq_natCast]
      omega
    simp only [List.map_cons, List.map_nil, List.foldl_cons, List.foldl_nil,
      max_eq_right hk, Int.ofNat_eq_natCast]
    omega

theorem get_max_sequence_of_range (db : DB) (t k : Nat)
    (h : seqsOf db t = List.range k) :
    get_max_sequence db t = (k : Int) - 1 := by
  rw [get_max_sequence_eq_foldl, h, foldl_max_intCast_range]

theorem range_append_three (k : Nat) :
    List.range k ++ [k, k + 1, k + 2] = List.range (k + 3) := by
  rw [show k + 3 = (k + 2) + 1 from rfl, List.range_succ,
    show k + 2 = (k + 1) + 1 from rfl, List.range_succ, List.range_succ]
  simp [List.append_assoc]

theorem lazyCreateStep_of_task_some (st : GenState) (ev : Event) (t : Nat)
    (h : st.task = some t) : lazyCreateStep st ev = st := by
  simp [lazyCreateStep, h]

theorem applySessionBinding_frame (st : GenState) (nsid : String) (t : Nat)
    (h : st.task = some t) :
    (applySessionBinding st nsid).task = some t ∧
    (applySessionBinding st nsid).db.events = st.db.events ∧
    (applySessionBinding st nsid).eventSeq = st.eventSeq := by
  obtain ⟨sdb, stask, seq, sns, sum, srs, shv, sam, sap, sss⟩ := st
  dsimp only at h ⊢
  subst h
  dsimp only [applySessionBinding]
  rcases hf : sdb.tasks.find? (fun tr => tr.tid = t) with _ | trec
  · rw [hf]
    exact ⟨rfl, rfl, rfl⟩
  · rw [hf]
    dsimp only
    by_cases h1 : ¬ strTruthy trec.sessionId
    · rw [if_pos h1]
      by_cases h2 : sdb.tasks.any
          (fun tr => tr.sessionId = some nsid ∧ tr.tid ≠ t) = true
      · rw [if_pos h2]
        exact ⟨rfl, rfl, rfl⟩
      · rw [if_neg h2]
        exact ⟨rfl, rfl, rfl⟩
    · rw [if_neg h1]
      exact ⟨rfl, rfl, rfl⟩

theorem sessionStep_frame (st : GenState) (ev : Event) (t : Nat)
    (h : st.task = some t) :
    (sessionStep st ev).task = some t ∧
    (sessionStep st ev).db.events = st.db.events ∧
    (sessionStep st ev).eventSeq = st.eventSeq := by
  unfold sessionStep
  by_cases h0 : ¬ strTruthy st.newSessionId
  · rw [if_pos h0]
    rcases he : extractSessionId ev with _ | s
    · exact ⟨h, rfl, rfl⟩
    · dsimp only
      by_cases hs : s ≠ ""
      · rw [if_pos hs]
        exact applySessionBinding_frame _ s t h
      · rw [if_neg hs]
        exact ⟨h, rfl, rfl⟩
  · rw [if_neg h0]
    exact ⟨h, rfl, rfl⟩

theorem collectStartStep_frame (st : GenState) (ev : Event) :
    (collectStartStep st ev).task = st.task ∧
    (collectStartStep st ev).db = st.db ∧
    (collectStartStep st ev).eventSeq = st.eventSeq := by
  unfold collectStartStep
  cases ev <;> try exact ⟨rfl, rfl, rfl⟩
  rename_i mid role
  dsimp only
  by_cases hr : role = "assistant"
  · rw [if_pos hr]
    exact ⟨rfl, rfl, rfl⟩
  · rw [if_neg hr]
    exact ⟨rfl, rfl, rfl⟩

theorem collectDeltaStep_frame (st : GenState) (ev : Event) :
    (collectDeltaStep st ev).task = st.task ∧
    (collectDeltaStep st ev).db = st.db ∧
    (collectDeltaStep st ev).eventSeq = st.eventSeq := by
  unfold collectDeltaStep
  cases ev <;> try exact ⟨rfl, rfl, rfl⟩
  rename_i mid delta
  dsimp only
  rcases st.assistantMessageId with _ | a
  · exact ⟨rfl, rfl, rfl⟩
  · dsimp only
    by_cases hc : a ≠ "" ∧ mid = a ∧ delta ≠ ""
    · rw [if_pos hc]
      exact ⟨rfl, rfl, rfl⟩
    · rw [if_neg hc]
      exact ⟨rfl, rfl, rfl⟩

theorem collectContentStep_frame (st : GenState) (ev : Event) :
    (collectContentStep st ev).task = st.task ∧
    (collectContentStep st ev).db = st.db ∧
    (collectContentStep st ev).eventSeq = st.eventSeq := by
  obtain ⟨h1, h2, h3⟩ := collectDeltaStep_frame (collectStartStep st ev) ev
  obtain ⟨h4, h5, h6⟩ := collectStartStep_frame st ev
  exact ⟨h1.trans h4, h2.trans h5, h3.trans h6⟩

theorem sessionInfoStep_frame (st : GenState) (ev : Event) :
    (sessionInfoStep st ev).task = st.task ∧
    (sessionInfoStep st ev).db = st.db ∧
    (sessionInfoStep st ev).eventSeq = st.eventSeq := by
  unfold sessionInfoStep
  split <;> exact ⟨rfl, rfl, rfl⟩

theorem saveStep_inv (st : GenState) (ev : Event) (t : Nat)
    (h1 : st.task = some t) (h2 : seqsOf st.db t = List.range st.eventSeq) :
    (saveStep st ev).task = some t ∧
    seqsOf (saveStep st ev).db t = List.range (saveStep st ev).eventSeq ∧
    st.eventSeq ≤ (saveStep st ev).eventSeq := by
  obtain ⟨sdb, stask, seq, sns, sum, srs, shv, sam, sap, sss⟩ := st
  dsimp only at h1 h2 ⊢
  subst h1
  dsimp only [saveStep]
  by_cases hs : ev.typeStr ≠ "SessionInfo"
  · rw [if_pos hs]
    by_cases hm : ev.typeStr ∈ ["TextMessageStart", "ThinkingStart", "ToolCallStart"]
    · rw [if_pos hm]
      refine ⟨rfl, ?_, Nat.le_succ seq⟩
      dsimp only
      rw [seqsOf_save_event_self, h2, ← List.range_succ]
    · rw [if_neg hm]
      refine ⟨rfl, ?_, Nat.le_succ seq⟩
      dsimp only
      rw [seqsOf_save_event_self, h2, ← List.range_succ]
  · rw [if_neg hs]
    exact ⟨rfl, h2, Nat.le_refl seq⟩

theorem runStartedStep_inv (st : GenState) (t : Nat)
    (h1 : st.task = some t) (h2 : seqsOf st.db t = List.range st.eventSeq) :
    (runStartedStep st).task = some t ∧
    seqsOf (runStartedStep st).db t = List.range (runStartedStep st).eventSeq ∧
    st.eventSeq ≤ (runStartedStep st).eventSeq := by
  obtain ⟨sdb, stask, seq, sns, sum, srs, shv, sam, sap, sss⟩ := st
  dsimp only at h1 h2 ⊢
  subst h1
  dsimp only [runStartedStep]
  by_cases hr : ¬ srs = true
  · rw [if_pos hr]
    refine ⟨rfl, ?_, Nat.le_succ seq⟩
    dsimp only
    rw [seqsOf_save_event_self, h2, ← List.range_succ]
  · rw [if_neg hr]
    exact ⟨rfl, h2, Nat.le_refl seq⟩

theorem processEvent_inv (st : GenState) (ev : Event) (t : Nat)
    (h1 : st.task = some t) (h2 : seqsOf st.db t = List.range st.eventSeq) :
    (processEvent st ev).task = some t ∧
    seqsOf (processEvent st ev).db t = List.range (processEvent st ev).eventSeq ∧
    st.eventSeq ≤ (processEvent st ev).eventSeq := by
  unfold processEvent
  rw [lazyCreateStep_of_task_some st ev t h1]
  by_cases hr : st.task.isSome ∧ ev.typeStr = "RunStarted"
  · rw [if_pos hr]
    exact runStartedStep_inv st t h1 h2
  · rw [if_neg hr]
    obtain ⟨ha, hb, hc⟩ := saveStep_inv st ev t h1 h2
    obtain ⟨hd, he, hf⟩ := sessionStep_frame (saveStep st ev) ev t ha
    obtain ⟨hg, hh, hi⟩ :=
      collectContentStep_frame (sessionStep (saveStep st ev) ev) ev
    obtain ⟨hj, hk, hl⟩ := sessionInfoStep_frame
      (collectContentStep (sessionStep (saveStep st ev) ev) ev) ev
    have hseq4 : (sessionInfoStep
        (collectContentStep (sessionStep (saveStep st ev) ev) ev) ev).eventSeq =
        (saveStep st ev).eventSeq := by
      rw [hl, hi, hf]
    have hev4 : (sessionInfoStep
        (collectContentStep (sessionStep (saveStep st ev) ev) ev) ev).db.events =
        (saveStep st ev).db.events := by
      rw [hk, hh]
      exact he
    have htask4 : (sessionInfoStep
        (collectContentStep (sessionStep (saveStep st ev) ev) ev) ev).task =
        some t := by
      rw [hj, hg]
      exact hd
    refine ⟨htask4, ?_, ?_⟩
    · rw [seqsOf_events_congr _ _ t hev4, hseq4]
      exact hb
    · rw [hseq4]
      exact hc

theorem foldl_processEvent_inv (evs : List Event) (st : GenState) (t : Nat)
    (h1 : st.task = some t) (h2 : seqsOf st.db t = List.range st.eventSeq) :
    (evs.foldl processEvent st).task = some t ∧
    seqsOf (evs.foldl processEvent st).db t =
      List.range (evs.foldl processEvent st).eventSeq ∧
    st.eventSeq ≤ (evs.foldl processEvent st).eventSeq := by
  induction evs generalizing st with
  | nil => exact ⟨h1, h2, Nat.le_refl _⟩
  | cons e rest ih =>
    simp only [List.foldl_cons]
    obtain ⟨ha, hb, hc⟩ := processEvent_inv st e t h1 h2
    obtain ⟨hd, he, hf⟩ := ih (processEvent st e) ha hb
    exact ⟨hd, he, le_trans hc hf⟩

theorem mkInit_existing_inv (db : DB) (t k : Nat)
    (h : seqsOf db t = List.range k) :
    (mkInit (some t) db).task = some t ∧
    (mkInit (some t) db).eventSeq = k + 3 ∧
    seqsOf (mkInit (some t) db).db t = List.range (k + 3) := by
  have hmax : get_max_sequence db t = (k : Int) - 1 :=
    get_max_sequence_of_range db t k h
  have hseq0 : (get_max_sequence db t + 1).toNat = k := by
    rw [hmax]
    omega
  dsimp only [mkInit]
  rw [hseq0]
  refine ⟨rfl, rfl, ?_⟩
  rw [seqsOf_save_event_self, seqsOf_save_event_self, seqsOf_save_event_self,
    seqsOf_create_user_message, h, List.append_assoc, List.append_assoc]
  exact range_append_three k

theorem finishGen_frame (req : ResponseRequest) (st : GenState) (t v : Nat)
    (h : st.task = some t) (ht : req.task_id = some v) :
    (finishGen req st).task = some t ∧
    (finishGen req st).db.events = st.db.events ∧
    (finishGen req st).eventSeq = st.eventSeq := by
  obtain ⟨sdb, stask, seq, sns, sum, srs, shv, sam, sap, sss⟩ := st
  dsimp only at h ⊢
  subst h
  dsimp only [finishGen]
  by_cases h1 : ¬ sap.isEmpty = true
  · rw [if_pos h1]
    by_cases h2 : pyStrip (joinStrings sap) ≠ ""
    · rw [if_pos h2]
      exact ⟨rfl, rfl, rfl⟩
    · rw [if_neg h2]
      exact ⟨rfl, rfl, rfl⟩
  · rw [if_neg h1]
    have hni : ¬ ((some v : Option Nat).isNone = true) := by simp
    rw [ht, if_neg hni]
    exact ⟨rfl, rfl, rfl⟩

/-- C5: For a task identified by the caller whose persisted sequences so far
are exactly `0,…,k-1`, `get_max_sequence` returns `k-1` (`-1` when `k = 0`),
the run's cursor resumes at `k`, the three user-message events take
`k, k+1, k+2`, and after any event stream the persisted sequences for the
task are exactly `0,…,n-1` for the final cursor value `n ≥ k+3`: saves
within and across runs are gapless and repeat-free. -/
theorem c5_sequence_contiguity (req : ResponseRequest) (db : DB)
    (evs : List Event) (t k : Nat)
    (htid : req.task_id = some t)
    (hmem : db.tasks.any (fun tr => tr.tid = t) = true)
    (hseqs : seqsOf db t = List.range k) :
    get_max_sequence db t = (k : Int) - 1 ∧
    ∃ st, runGenerator req db evs = some st ∧ st.task = some t ∧
      seqsOf st.db t = List.range st.eventSeq ∧
      k + 3 ≤ st.eventSeq := by
  refine ⟨get_max_sequence_of_range db t k hseqs, ?_⟩
  obtain ⟨msg, rti, rsi⟩ := req
  dsimp only at htid
  subst htid
  obtain ⟨hti, hei, hsi⟩ := mkInit_existing_inv db t k hseqs
  have h2 : seqsOf (mkInit (some t) db).db t =
      List.range (mkInit (some t) db).eventSeq := by
    rw [hei]
    exact hsi
  obtain ⟨hf1, hf2, hf3⟩ := foldl_processEvent_inv evs (mkInit (some t) db) t hti h2
  obtain ⟨hg1, hg2, hg3⟩ := finishGen_frame ⟨msg, some t, rsi⟩
    (evs.foldl processEvent (mkInit (some t) db)) t t hf1 rfl
  refine ⟨finishGen ⟨msg, some t, rsi⟩
    (evs.foldl processEvent (mkInit (some t) db)), ?_, hg1, ?_, ?_⟩
  · unfold runGenerator initGen
    dsimp only
    rw [if_pos hmem]
    rfl
  · rw [seqsOf_events_congr _ _ t hg2, hg3]
    exact hf2
  · rw [hg3]
    rw [hei] at hf3
    exact hf3

theorem c5_sequence_contiguity_witness :
    get_max_sequence ⟨[⟨0, none⟩], [], [], 1⟩ 0 = (0 : Int) - 1 ∧
    ∃ st, runGenerator ⟨"hi", some 0, none⟩ ⟨[⟨0, none⟩], [], [], 1⟩ [] =
        some st ∧ st.task = some 0 ∧
      seqsOf st.db 0 = List.range st.eventSeq ∧
      0 + 3 ≤ st.eventSeq :=
  c5_sequence_contiguity ⟨"hi", some 0, none⟩ ⟨[⟨0, none⟩], [], [], 1⟩ [] 0 0
    rfl (by decide) rfl
